import Mathlib

/-!
Verification of the research-issue agent of the writing-assistant package.

This file embeds, over `List Char`, the checklist parser, checklist writer,
selector fallback logic, research dispatch nodes, workflow graph, reference
sync and comment formatters of `writing_assistant/research_issue_agent.py`
and `writing_assistant/zotero_sync.py`, and proves or refutes the spec's
claims about them.

Conventions: Python `str` values are modelled as `List Char`; text is split
into lines on the newline character; fallible Python code is modelled with
`Except`; external collaborators (GitHub client, selector LLM, research
sub-agent, Zotero client) are parameters of the functions that call them.
-/

set_option maxHeartbeats 1000000

/-- Python strings are modelled as lists of characters. -/
abbrev Str := List Char

/-- Coerce a Lean string literal to the character-list model. -/
def str (s : String) : Str := s.data

/-- Python whitespace characters (`str.strip` and `\s` default set, ASCII). -/
def isPySpace (c : Char) : Bool :=
  c = ' ' || c = '\t' || c = '\n' || c = '\r' || c = '\x0b' || c = '\x0c'

/-- Python `s.lstrip()`. -/
def pyLstrip (s : Str) : Str := s.dropWhile isPySpace

/-- Python `s.rstrip()`. -/
def pyRstrip (s : Str) : Str := s.rdropWhile isPySpace

/-- Python `s.strip()`. -/
def pyStrip (s : Str) : Str := (s.dropWhile isPySpace).rdropWhile isPySpace

/-- Python `s.startswith(pat)`: `strStartsWith pat s` is true when `pat` is a
prefix of `s`. -/
def strStartsWith : Str → Str → Bool
  | [], _ => true
  | _ :: _, [] => false
  | p :: ps, c :: cs => p = c && strStartsWith ps cs

/-- Python `s.lower()` (ASCII). -/
def toLowerStr (s : Str) : Str := s.map Char.toLower

/-- Python `s.lstrip("- ")`: strip the leading characters drawn from `-` and
space, as used for detail bullets. -/
def lstripDashSpace (s : Str) : Str := s.dropWhile (fun c => c = '-' || c = ' ')

/-- Python `s.replace(pat, repl, 1)` for a nonempty pattern: replace the first
occurrence of `pat` in `s` by `repl`. -/
def replaceFirst (pat repl : Str) : Str → Str
  | [] => []
  | c :: t =>
    if strStartsWith pat (c :: t) then repl ++ (c :: t).drop pat.length
    else c :: replaceFirst pat repl t

/-- Python `s.splitlines()` for text whose line terminator is the newline
character: empty text has no lines, and a trailing newline does not produce a
trailing empty line. -/
def pySplitlines (s : Str) : List Str :=
  if s = [] then []
  else
    let parts := s.splitOn '\n'
    if parts.getLast? = some [] then parts.dropLast else parts

/-- Python `"\n".join(lines)`. -/
def joinLines (ls : List Str) : Str := List.intercalate (str "\n") ls

/-- Decimal rendering of a natural number, as Python `str(n)` / f-strings. -/
def natToStr (n : Nat) : Str := (Nat.repr n).data

/-- Match of the regex `^##\s+(.+)$` against a right-stripped line, returning
the heading text group. -/
def matchHeading (l : Str) : Option Str :=
  match l with
  | '#' :: '#' :: c :: rest =>
    if isPySpace c ∧ ((c :: rest).dropWhile isPySpace) ≠ [] then
      some ((c :: rest).dropWhile isPySpace)
    else none
  | _ => none

/-- Match of the checklist-line regex `^- \[( |x)\] (.+)$` (case-insensitive)
against a stripped, newline-free line, returning the box character and the
remainder group. -/
def matchArticleLine (l : Str) : Option (Char × Str) :=
  match l with
  | '-' :: ' ' :: '[' :: c :: ']' :: ' ' :: rest =>
    if (c = ' ' ∨ c = 'x' ∨ c = 'X') ∧ rest ≠ [] then some (c, rest) else none
  | _ => none

/-- Case-insensitive prefix test: does `s` start with the lowercase pattern
`pat` up to ASCII case? -/
def ciMatch : Str → Str → Bool
  | [], _ => true
  | _ :: _, [] => false
  | p :: ps, c :: cs => Char.toLower c = p && ciMatch ps cs

/-- Match of the status regex `\((known|unknown)\)` (case-insensitive) at the
start of `l`, returning the lowered status group and the match length. -/
def statusAt (l : Str) : Option (Str × Nat) :=
  if ciMatch (str "(known)") l then some (str "known", 7)
  else if ciMatch (str "(unknown)") l then some (str "unknown", 9)
  else none

/-- Python `STATUS_PATTERN.search(l)`: the status group of the leftmost match
of `\((known|unknown)\)`, lowered. -/
def statusSearch : Str → Option Str
  | [] => none
  | c :: rest =>
    match statusAt (c :: rest) with
    | some (st, _) => some st
    | none => statusSearch rest

/-- Fuel-driven scanner for `statusSub`; the fuel is an upper bound kept at or
above the text length, so the fuel-exhaustion branch is unreachable. -/
def statusSubF : Nat → Str → Str
  | 0, l => l
  | _ + 1, [] => []
  | n + 1, c :: rest =>
    if ciMatch (str "(known)") (c :: rest) then statusSubF n (rest.drop 6)
    else if ciMatch (str "(unknown)") (c :: rest) then statusSubF n (rest.drop 8)
    else c :: statusSubF n rest

/-- Python `STATUS_PATTERN.sub("", l)`: remove every non-overlapping
occurrence of `\((known|unknown)\)`, scanning left to right. -/
def statusSub (l : Str) : Str := statusSubF l.length l

/-- Dataclass `IssueArticle` of `research_issue_agent.py`. -/
structure IssueArticle where
  name : Str
  status : Str
  details : List Str
  checked : Bool
  line_index : Nat
deriving DecidableEq, Repr

/-- Dataclass `IssueTopic` of `research_issue_agent.py`. -/
structure IssueTopic where
  topic : Str
  details : List Str
  checked : Bool
  line_index : Nat
deriving DecidableEq, Repr

/-- Parser state shared by `parse_issue_articles` and `parse_issue_topics`:
the section flag, the current item, its pending detail lines, and the
finalized items. -/
structure ParseSt (α : Type) where
  inSec : Bool
  cur : Option α
  curDetails : List Str
  acc : List α

/-- One iteration of the parsing loop of `parse_issue_articles` /
`parse_issue_topics`, generic over the item constructor `mk` (from the
remainder group, the checked flag and the line index) and the detail
finalizer `setD`. -/
def parseStep {α : Type} (mk : Str → Bool → Nat → α) (setD : α → List Str → α)
    (secKey : Str) (idx : Nat) (raw : Str) (st : ParseSt α) : ParseSt α :=
  let line := pyRstrip raw
  match matchHeading line with
  | some h =>
    let heading := toLowerStr (pyStrip h)
    { inSec := strStartsWith secKey heading
      cur := none
      curDetails := match st.cur with | some _ => [] | none => st.curDetails
      acc := match st.cur with
             | some a => st.acc ++ [setD a st.curDetails]
             | none => st.acc }
  | none =>
    if st.inSec = false then st
    else
      match matchArticleLine (pyStrip line) with
      | some (c, remainder) =>
        { inSec := st.inSec
          cur := some (mk remainder (Char.toLower c = 'x') idx)
          curDetails := match st.cur with | some _ => [] | none => st.curDetails
          acc := match st.cur with
                 | some a => st.acc ++ [setD a st.curDetails]
                 | none => st.acc }
      | none =>
        if st.cur.isSome ∧ strStartsWith ['-'] (pyLstrip line) then
          { st with curDetails := st.curDetails ++ [lstripDashSpace (pyStrip line)] }
        else st

/-- The line loop of the checklist parsers, threading the absolute line
index. -/
def parseLoop {α : Type} (mk : Str → Bool → Nat → α) (setD : α → List Str → α)
    (secKey : Str) : Nat → ParseSt α → List Str → ParseSt α
  | _, st, [] => st
  | i, st, l :: ls => parseLoop mk setD secKey (i + 1) (parseStep mk setD secKey i l st) ls

/-- The trailing `finalize_current()` call of the checklist parsers. -/
def parseFinish {α : Type} (setD : α → List Str → α) (st : ParseSt α) : List α :=
  match st.cur with
  | some a => st.acc ++ [setD a st.curDetails]
  | none => st.acc

/-- Generic body of `parse_issue_articles` / `parse_issue_topics`. -/
def parseChecklist {α : Type} (mk : Str → Bool → Nat → α) (setD : α → List Str → α)
    (secKey : Str) (body : Str) : List α :=
  parseFinish setD (parseLoop mk setD secKey 0 ⟨false, none, [], []⟩ (pySplitlines body))

/-- Construction of an `IssueArticle` from a matched checklist line: the
status tag is searched in the stripped remainder and stripped from the
name. -/
def mkIssueArticle (r : Str) (chk : Bool) (idx : Nat) : IssueArticle :=
  let remainder := pyStrip r
  let status := match statusSearch remainder with
                | some s => s
                | none => str "unknown"
  let name := pyStrip (statusSub remainder)
  ⟨name, status, [], chk, idx⟩

/-- Detail finalizer for articles. -/
def setDetailsA (a : IssueArticle) (ds : List Str) : IssueArticle :=
  { a with details := ds }

/-- Construction of an `IssueTopic` from a matched checklist line. -/
def mkIssueTopic (r : Str) (chk : Bool) (idx : Nat) : IssueTopic :=
  ⟨pyStrip r, [], chk, idx⟩

/-- Detail finalizer for topics. -/
def setDetailsT (t : IssueTopic) (ds : List Str) : IssueTopic :=
  { t with details := ds }

/-- Function `parse_issue_articles` of `research_issue_agent.py`. -/
def parse_issue_articles (body : Str) : List IssueArticle :=
  parseChecklist mkIssueArticle setDetailsA (str "articles to find") body

/-- Function `parse_issue_topics` of `research_issue_agent.py`. -/
def parse_issue_topics (body : Str) : List IssueTopic :=
  parseChecklist mkIssueTopic setDetailsT (str "topics to review") body

/-- The marking loop shared by `mark_articles_completed` and
`mark_topics_completed`: for each parsed item whose position is in the target
set and whose box is unchecked, replace the first `[ ]` of its source line by
`[x]`. -/
def markLines {α : Type} (chk : α → Bool) (lidx : α → Nat)
    (items : List α) (target : List Int) (lines : List Str) : List Str :=
  items.enum.foldl
    (fun ls pa =>
      if ((pa.1 : Int) ∈ target) ∧ chk pa.2 = false then
        ls.set (lidx pa.2)
          (replaceFirst (str "[ ]") (str "[x]") (ls.getD (lidx pa.2) []))
      else ls)
    lines

/-- Function `mark_articles_completed` of `research_issue_agent.py`. -/
def mark_articles_completed (body : Str) (indices : List Int) : Str :=
  if indices = [] then body
  else
    let lines := pySplitlines body
    let articles := parse_issue_articles body
    joinLines (markLines IssueArticle.checked IssueArticle.line_index articles indices lines)

/-- Function `mark_topics_completed` of `research_issue_agent.py`. -/
def mark_topics_completed (body : Str) (indices : List Int) : Str :=
  if indices = [] then body
  else
    let lines := pySplitlines body
    let topics := parse_issue_topics body
    joinLines (markLines IssueTopic.checked IssueTopic.line_index topics indices lines)

/-- Test that text begins with `##` plus at least one whitespace character,
the prefix pattern of the summary-splitting regex `^##\s+`. -/
def matchHeadingStart (l : Str) : Bool :=
  match l with
  | '#' :: '#' :: c :: _ => isPySpace c
  | _ => false

/-- Scanner for `extract_issue_summary`: the text up to (excluding) the first
position at a line start whose text matches `##\s+`, mirroring the anchored
multiline split `re.split(r"^##\s+", body, maxsplit=1)`. -/
def summaryScan : Str → Bool → Str
  | [], _ => []
  | c :: rest, atLineStart =>
    if atLineStart ∧ matchHeadingStart (c :: rest) then []
    else c :: summaryScan rest (c = '\n')

/-- Function `extract_issue_summary` of `research_issue_agent.py`: the text
before the first second-level heading, stripped. -/
def extract_issue_summary (body : Str) : Str :=
  pyStrip (summaryScan body true)

/-- Model of Python values as produced by `json.loads` and passed between the
embedded functions.  `jfloat` stands for a nonzero non-integral JSON number;
its numeric value is never consulted by the embedded code. -/
inductive JValue where
  | jnull
  | jbool (b : Bool)
  | jint (n : Int)
  | jfloat
  | jstr (s : Str)
  | jarr (xs : List JValue)
  | jobj (kvs : List (Str × JValue))

/-- Python truthiness of a modelled value. -/
def pyTruthy : JValue → Bool
  | .jnull => false
  | .jbool b => b
  | .jint n => n != 0
  | .jfloat => true
  | .jstr s => !s.isEmpty
  | .jarr xs => !xs.isEmpty
  | .jobj kvs => !kvs.isEmpty

/-- Python `d.get(k)` on a dict modelled as an association list. -/
def jGet (kvs : List (Str × JValue)) (k : Str) : Option JValue :=
  (kvs.find? (fun kv => kv.1 = k)).map (fun kv => kv.2)

/-- Python `d[k] = v`: replace the value of an existing key in place, else
append the new binding (insertion order preserved). -/
def jSet (kvs : List (Str × JValue)) (k : Str) (v : JValue) : List (Str × JValue) :=
  if (kvs.find? (fun kv => kv.1 = k)).isSome then
    kvs.map (fun kv => if kv.1 = k then (k, v) else kv)
  else kvs ++ [(k, v)]

/-- Python `d.setdefault(k, v)`. -/
def jSetDefault (kvs : List (Str × JValue)) (k : Str) (v : JValue) : List (Str × JValue) :=
  if (kvs.find? (fun kv => kv.1 = k)).isSome then kvs else kvs ++ [(k, v)]

/-- Python `str(v)` / f-string rendering of a modelled value.  Scalars are
rendered exactly; containers (never rendered on any path a claim exercises)
are approximated by placeholders. -/
def pyToStr : JValue → Str
  | .jstr s => s
  | .jint n => (toString n).data
  | .jbool true => str "True"
  | .jbool false => str "False"
  | .jnull => str "None"
  | .jfloat => str "<float>"
  | .jarr _ => str "<list>"
  | .jobj _ => str "<dict>"

/-- Python `a or dflt` where `a` is an optional lookup result: the value when
present and truthy, else the default. -/
def pyOr (a : Option JValue) (dflt : JValue) : JValue :=
  match a with
  | some v => if pyTruthy v then v else dflt
  | none => dflt

/-- Python `a or b` for two optional lookup results. -/
def pyOrOpt (a b : Option JValue) : Option JValue :=
  match a with
  | some v => if pyTruthy v then some v else b
  | none => b

/-- Truthiness of an optional value (`None` is falsy). -/
def truthyOpt (o : Option JValue) : Bool :=
  match o with
  | some v => pyTruthy v
  | none => false

/-- Python `x is None` for an optional value, treating a stored `None` like a
missing one. -/
def isNoneJ (o : Option JValue) : Bool :=
  match o with
  | none => true
  | some .jnull => true
  | some _ => false

/-- Exceptions raised by the embedded code.  `zoteroSyncError` is the class
`ZoteroSyncError`; the node-level handler catches exactly that constructor. -/
inductive PyErr where
  | attrError (msg : Str)
  | typeError (msg : Str)
  | valueError (msg : Str)
  | runtimeError (msg : Str)
  | zoteroSyncError (msg : Str)
deriving DecidableEq, Repr

/-- Python `isinstance(v, int)` plus `int(v)`: booleans are a subclass of
`int` in Python, so they pass the filter and coerce to 0 or 1. -/
def jIntOf : JValue → Option Int
  | .jint n => some n
  | .jbool b => some (if b then 1 else 0)
  | _ => none

/-- Python iteration over a value: lists yield elements, strings yield
one-character strings, dicts yield their keys; other values raise
`TypeError`. -/
def pyIterList : JValue → Except PyErr (List JValue)
  | .jarr xs => .ok xs
  | .jstr s => .ok (s.map (fun c => .jstr [c]))
  | .jobj kvs => .ok (kvs.map (fun kv => .jstr kv.1))
  | _ => .error (.typeError (str "object is not iterable"))

/-- One prompt line per unchecked article in `select_articles_with_llm`. -/
def articlePromptLine (position : Nat) (article : IssueArticle) : Str :=
  let detail_text :=
    if article.details ≠ [] then List.intercalate (str "; ") article.details
    else str "(no extra details)"
  str "- index=" ++ natToStr position ++ str ": name=\x27" ++ article.name ++
    str "\x27 status=" ++ article.status ++ str " details=" ++ detail_text

/-- The selection prompt composed by `select_articles_with_llm`. -/
def selectorPromptArticles (issue_title summary : Str)
    (unchecked : List (Nat × IssueArticle)) : Str :=
  joinLines
    ([str "You review issue checklists and decide which articles should be researched now.",
      str "Issue title: " ++ issue_title,
      str "Issue summary:",
      (if summary ≠ [] then summary else str "(none)"),
      str "\nUnchecked articles:"]
     ++ unchecked.map (fun pa => articlePromptLine pa.1 pa.2)
     ++ [str "\nRespond with JSON: \x7b\"selected\": [indices you plan to research now]\x7d."])

/-- One prompt line per unchecked topic in `select_topics_with_llm`. -/
def topicPromptLine (position : Nat) (topic : IssueTopic) : Str :=
  let detail_text :=
    if topic.details ≠ [] then List.intercalate (str "; ") topic.details
    else str "(no extra details)"
  str "- index=" ++ natToStr position ++ str ": topic=\x27" ++ topic.topic ++
    str "\x27 details=" ++ detail_text

/-- The selection prompt composed by `select_topics_with_llm`. -/
def selectorPromptTopics (issue_title summary : Str)
    (unchecked : List (Nat × IssueTopic)) : Str :=
  joinLines
    ([str "You triage follow-up topics and decide which ones should be researched now.",
      str "Issue title: " ++ issue_title,
      str "Issue summary:",
      (if summary ≠ [] then summary else str "(none)"),
      str "\nUnchecked topics:"]
     ++ unchecked.map (fun pa => topicPromptLine pa.1 pa.2)
     ++ [str "\nRespond with JSON: \x7b\"selected\": [indices you plan to research now]\x7d."])

/-- Shared response handling of the two selector functions: the try block
around `json.loads` and the `selected` extraction.  The `llmParsed` argument
is the outcome of `json.loads(response.content)`: `none` when it raised one
of the caught exceptions, `some payload` otherwise.  The fallback list is the
list of all unchecked positions. -/
def selectorDecode (llmParsed : Option JValue) (fallback : List Int) :
    Except PyErr (List Int) :=
  match llmParsed with
  | none => .ok fallback
  | some payload =>
    match payload with
    | .jobj kvs =>
      let indices := (jGet kvs (str "selected")).getD (.jarr [])
      match indices with
      | .jarr xs => .ok (xs.filterMap jIntOf)
      | .jstr _ => .ok []
      | .jobj _ => .ok []
      | _ => .ok fallback
    | _ => .error (.attrError (str "payload.get"))

/-- Function `select_articles_with_llm` of `research_issue_agent.py`.  The
selector LLM is the parameter `llm`, mapping the composed prompt to the
outcome of `json.loads` on its response content. -/
def select_articles_with_llm (llm : Str → Option JValue) (issue_title summary : Str)
    (articles : List IssueArticle) : Except PyErr (List Int) :=
  let unchecked := articles.enum.filter (fun pa => pa.2.checked = false)
  if unchecked = [] then .ok []
  else
    let message := selectorPromptArticles issue_title summary unchecked
    selectorDecode (llm message) (unchecked.map (fun pa => (pa.1 : Int)))

/-- Function `select_topics_with_llm` of `research_issue_agent.py`. -/
def select_topics_with_llm (llm : Str → Option JValue) (issue_title summary : Str)
    (topics : List IssueTopic) : Except PyErr (List Int) :=
  let unchecked := topics.enum.filter (fun pa => pa.2.checked = false)
  if unchecked = [] then .ok []
  else
    let message := selectorPromptTopics issue_title summary unchecked
    selectorDecode (llm message) (unchecked.map (fun pa => (pa.1 : Int)))

/-- Dataclass `ZoteroSyncResult` of `zotero_sync.py`.  The stable identifier
is stored via its string rendering, matching its use in the deep-link. -/
structure ZoteroSyncResult where
  key : Str
  select_uri : Str
  web_url : Option Str
  existed : Bool
deriving DecidableEq, Repr

/-- External Zotero client operations used by `zotero_sync.py`, as oracle
functions.  The two query functions stand for `add_parameters` plus
`items()` with `qmode="everything"` (DOI pass) and `qmode="titleCreatorYear"`
(title pass); `initError` models a failing `zotero.Zotero(...)` constructor. -/
structure ZoteroClient where
  initError : Option Str
  item_template : JValue → Except Str (List (Str × JValue))
  queryEverything : JValue → Except Str (List JValue)
  queryTitleCreatorYear : JValue → Except Str (List JValue)
  create_items : List (List (Str × JValue)) → Except Str JValue

/-- Calls made to the Zotero client, recorded for the find-or-create
analysis. -/
inductive ZCall where
  | template (t : JValue)
  | queryDoi (q : JValue)
  | queryTitle (q : JValue)
  | create

/-- Falsiness of `os.getenv`: missing variable or empty string. -/
def optStrFalsy (o : Option Str) : Bool :=
  match o with
  | some s => s.isEmpty
  | none => true

/-- Function `_build_zotero_client` of `zotero_sync.py`. -/
def build_zotero_client (env : Str → Option Str) (client : ZoteroClient) :
    Except PyErr ZoteroClient :=
  let library_id := env (str "ZOTERO_LIBRARY_ID")
  let api_key := env (str "ZOTERO_API_KEY")
  if optStrFalsy library_id || optStrFalsy api_key then
    .error (.zoteroSyncError (str "Zotero credentials missing. Set ZOTERO_LIBRARY_ID and ZOTERO_API_KEY in the environment."))
  else
    match client.initError with
    | some exc => .error (.zoteroSyncError (str "Failed to initialise Zotero client: " ++ exc))
    | none => .ok client

/-- Function `_normalise_creators` of `zotero_sync.py`. -/
def normalise_creators (creators : List JValue) : List (List (Str × JValue)) :=
  creators.filterMap (fun creator =>
    match creator with
    | .jobj kvs =>
      let creator_type := pyOr (jGet kvs (str "creatorType")) (.jstr (str "author"))
      let first := (jGet kvs (str "firstName")).getD (.jstr [])
      let last := (jGet kvs (str "lastName")).getD (.jstr [])
      let name := jGet kvs (str "name")
      if truthyOpt name ∧ pyTruthy first = false ∧ pyTruthy last = false then
        some [(str "creatorType", creator_type), (str "name", name.getD .jnull)]
      else
        some [(str "creatorType", creator_type),
              (str "firstName", first), (str "lastName", last)]
    | _ => none)

/-- Function `_normalise_tags` of `zotero_sync.py`. -/
def normalise_tags (tags : Option JValue) : List (List (Str × JValue)) :=
  match tags with
  | none => []
  | some t =>
    if pyTruthy t = false then []
    else
      match t with
      | .jarr xs =>
        xs.filterMap (fun tag =>
          match tag with
          | .jobj kvs =>
            match jGet kvs (str "tag") with
            | some v => if pyTruthy v then some [(str "tag", .jstr (pyToStr v))] else none
            | none => none
          | .jstr s => if (pyStrip s).isEmpty = false then some [(str "tag", .jstr (pyStrip s))] else none
          | _ => none)
      | .jstr s => if (pyStrip s).isEmpty = false then [[(str "tag", .jstr (pyStrip s))]] else []
      | _ => []

/-- Function `_choose_existing_item` of `zotero_sync.py`, returning the chosen
match (if any) and the query calls performed; a raising query is swallowed by
the blanket `except` and yields no match. -/
def choose_existing_item (client : ZoteroClient) (doi title : Option JValue) :
    Option JValue × List ZCall :=
  if truthyOpt doi then
    let q := doi.getD .jnull
    match client.queryEverything q with
    | .error _ => (none, [.queryDoi q])
    | .ok (m :: _) => (some m, [.queryDoi q])
    | .ok [] =>
      if truthyOpt title then
        let qt := title.getD .jnull
        match client.queryTitleCreatorYear qt with
        | .error _ => (none, [.queryDoi q, .queryTitle qt])
        | .ok (m :: _) => (some m, [.queryDoi q, .queryTitle qt])
        | .ok [] => (none, [.queryDoi q, .queryTitle qt])
      else (none, [.queryDoi q])
  else if truthyOpt title then
    let qt := title.getD .jnull
    match client.queryTitleCreatorYear qt with
    | .error _ => (none, [.queryTitle qt])
    | .ok (m :: _) => (some m, [.queryTitle qt])
    | .ok [] => (none, [.queryTitle qt])
  else (none, [])

/-- Function `_build_web_url` of `zotero_sync.py`. -/
def build_web_url (env : Str → Option Str) (key : Str) : Option Str :=
  match env (str "ZOTERO_LIBRARY_ID") with
  | none => none
  | some lid =>
    if lid.isEmpty then none
    else
      let lt := toLowerStr ((env (str "ZOTERO_LIBRARY_TYPE")).getD (str "user"))
      let lt2 := if lt = str "user" ∨ lt = str "group" then lt else str "user"
      let base := if lt2 = str "user" then str "users" else str "groups"
      some (str "https://www.zotero.org/" ++ base ++ str "/" ++ lid ++ str "/items/" ++ key)

/-- The `FIELD_ALIASES` table of `zotero_sync.py`. -/
def fieldAliases : List (Str × Str) :=
  [(str "doi", str "DOI"),
   (str "publicationTitle", str "publicationTitle"),
   (str "conferenceName", str "conferenceName"),
   (str "proceedingsTitle", str "proceedingsTitle"),
   (str "bookTitle", str "bookTitle"),
   (str "institution", str "institution"),
   (str "abstractNote", str "abstractNote"),
   (str "text_summary", str "abstractNote")]

/-- The lookup `structured.get("context", {}).get("summary")`; a non-dict
context raises `AttributeError`. -/
def jContextSummary (skvs : List (Str × JValue)) : Except PyErr (Option JValue) :=
  match (jGet skvs (str "context")).getD (.jobj []) with
  | .jobj ck => .ok (jGet ck (str "summary"))
  | _ => .error (.attrError (str "context.get"))

/-- The lookup `existing.get("key") or existing.get("data", {}).get("key")`
on a found store entry. -/
def jGetDataKey (ek : List (Str × JValue)) : Except PyErr (Option JValue) :=
  let a := jGet ek (str "key")
  if truthyOpt a then .ok a
  else
    match (jGet ek (str "data")).getD (.jobj []) with
    | .jobj dk => .ok (jGet dk (str "key"))
    | _ => .error (.attrError (str "data.get"))

/-- The `existed=True` return of `sync_structured_item` for a deduplicated
pre-existing entry. -/
def syncExisting (env : Str → Option Str) (ex : JValue) : Except PyErr ZoteroSyncResult :=
  match ex with
  | .jobj ek =>
    match jGetDataKey ek with
    | .error e => .error e
    | .ok key? =>
      if truthyOpt key? = false then
        .error (.zoteroSyncError (str "Existing Zotero item lacks a key identifier."))
      else
        let k := pyToStr (key?.getD .jnull)
        .ok ⟨k, str "zotero://select/items/" ++ k, build_web_url env k, true⟩
  | _ => .error (.attrError (str "existing.get"))

/-- The `existed=False` return of `sync_structured_item` from the
`create_items` response: the identifier is the first value of the `success`
dict. -/
def syncCreated (env : Str → Option Str) (response : JValue) : Except PyErr ZoteroSyncResult :=
  let success : Option JValue :=
    match response with
    | .jobj rk => jGet rk (str "success")
    | _ => none
  if truthyOpt success = false then
    .error (.zoteroSyncError (str "Zotero creation returned no success payload."))
  else
    match success with
    | some (.jobj ((_, v0) :: _)) =>
      let k := pyToStr v0
      .ok ⟨k, str "zotero://select/items/" ++ k, build_web_url env k, false⟩
    | _ => .error (.attrError (str "success.values"))

/-- Test for `value in (None, "")` in the payload overlay. -/
def isNullOrEmptyStr : JValue → Bool
  | .jnull => true
  | .jstr s => s.isEmpty
  | _ => false

/-- Payload assembly of `sync_structured_item`: template fields minus
`creators`/`tags`, overlaid with the aliased entry fields present in both and
neither `None` nor the empty string. -/
def syncBuildPayload (template : List (Str × JValue)) (ekvs : List (Str × JValue)) :
    List (Str × JValue) :=
  let payload0 := template.filter (fun kv => kv.1 ≠ str "creators" ∧ kv.1 ≠ str "tags")
  ekvs.foldl
    (fun p kv =>
      let nk := match fieldAliases.find? (fun a => a.1 = kv.1) with
                | some a => a.2
                | none => kv.1
      if (p.find? (fun q => q.1 = nk)).isSome && !(isNullOrEmptyStr kv.2) then
        jSet p nk kv.2
      else p)
    payload0

/-- The creator, tag and abstract overlay steps of `sync_structured_item`
applied to the filtered template payload. -/
def syncFullPayload (template ekvs : List (Str × JValue))
    (creatorsRaw : List JValue) (abstract? : Option JValue) : List (Str × JValue) :=
  let payload1 := syncBuildPayload template ekvs
  let creators := normalise_creators creatorsRaw
  let payload2 :=
    if creators.isEmpty = false then
      jSet payload1 (str "creators") (.jarr (creators.map .jobj))
    else payload1
  let tags := normalise_tags (jGet ekvs (str "tags"))
  let payload3 :=
    if tags.isEmpty = false then
      jSet payload2 (str "tags") (.jarr (tags.map .jobj))
    else payload2
  match abstract? with
  | some ab => if pyTruthy ab then jSetDefault payload3 (str "abstractNote") ab else payload3
  | none => payload3

/-- Body of `sync_structured_item` after the entry checks and client
construction. -/
def syncWithEntry (env : Str → Option Str) (client : ZoteroClient)
    (skvs ekvs : List (Str × JValue)) :
    Except PyErr ZoteroSyncResult × List ZCall :=
  let item_type := pyOr (jGet ekvs (str "itemType")) (.jstr (str "journalArticle"))
  match client.item_template item_type with
  | .error exc =>
    (.error (.zoteroSyncError
      (str "Unable to retrieve Zotero template for \x27" ++ pyToStr item_type ++ str "\x27: " ++ exc)),
     [.template item_type])
  | .ok template =>
    match pyIterList ((jGet ekvs (str "creators")).getD (.jarr [])) with
    | .error e => (.error e, [.template item_type])
    | .ok creatorsRaw =>
      match jContextSummary skvs with
      | .error e => (.error e, [.template item_type])
      | .ok abstract? =>
        let payload4 := syncFullPayload template ekvs creatorsRaw abstract?
        let doi := pyOrOpt (jGet ekvs (str "doi")) (jGet ekvs (str "DOI"))
        let title := jGet ekvs (str "title")
        let found := choose_existing_item client doi title
        match found.1 with
        | some ex => (syncExisting env ex, [.template item_type] ++ found.2)
        | none =>
          match client.create_items [payload4] with
          | .error exc =>
            (.error (.zoteroSyncError (str "Failed to create Zotero item: " ++ exc)),
             [.template item_type] ++ found.2 ++ [.create])
          | .ok response =>
            (syncCreated env response, [.template item_type] ++ found.2 ++ [.create])

/-- Function `sync_structured_item` of `zotero_sync.py`, with the Zotero
client and environment as oracles; the second component records the client
calls performed. -/
def sync_structured_item (env : Str → Option Str) (client : ZoteroClient)
    (structured : JValue) : Except PyErr ZoteroSyncResult × List ZCall :=
  match structured with
  | .jobj skvs =>
    match jGet skvs (str "items") with
    | some (.jarr (entry0 :: _)) =>
      match entry0 with
      | .jobj ekvs =>
        match build_zotero_client env client with
        | .error e => (.error e, [])
        | .ok _ => syncWithEntry env client skvs ekvs
      | _ => (.error (.zoteroSyncError (str "Zotero item entry is malformed.")), [])
    | _ =>
      (.error (.zoteroSyncError (str "Structured payload does not contain any Zotero item entries.")), [])
  | _ => (.error (.attrError (str "structured.get")), [])

/-- Dataclass `ResearchResult` of `research_issue_agent.py`.  `raw_output`
holds the sub-agent output value (a string unless the agent returned an
already-structured object). -/
structure ResearchResult where
  article_index : Int
  article : IssueArticle
  structured : JValue
  raw_output : JValue
  zotero : Option ZoteroSyncResult := none
  zotero_error : Option Str := none

/-- Dataclass `TopicResearchResult` of `research_issue_agent.py`. -/
structure TopicResearchResult where
  topic_index : Int
  topic : IssueTopic
  structured : JValue
  raw_output : JValue
  zotero : List ZoteroSyncResult := []
  zotero_errors : List Str := []

/-- Element extraction of Python `", ".join(values)`: the join succeeds only
when every element is a `str`; a truthy non-string element makes the
original `join` raise `TypeError`. -/
def strValues : List JValue → Option (List Str)
  | [] => some []
  | .jstr s :: rest => (strValues rest).map (fun ss => s :: ss)
  | _ :: _ => none

/-- The per-result block of `format_comment`; a non-dict structured record
raises `AttributeError` at `result.structured.get`. -/
def formatCommentEntry (result : ResearchResult) : Except PyErr (List Str) :=
  match result.structured with
  | .jobj skvs =>
    let head := str "- **" ++ result.article.name ++ str "** (_status: " ++
      result.article.status ++ str "_):"
    let items := (jGet skvs (str "items")).getD (.jarr [])
    let itemParts :=
      match items with
      | .jarr (it0 :: _) =>
        let top := match it0 with | .jobj tk => tk | _ => []
        let title := pyOr (jGet top (str "title")) (.jstr (str "Untitled"))
        let url := pyOrOpt (jGet top (str "url")) (jGet top (str "doi"))
        let pub := pyOrOpt (jGet top (str "publicationTitle"))
          (pyOrOpt (jGet top (str "conferenceName")) (jGet top (str "publisher")))
        [str "  - Title: " ++ pyToStr title]
        ++ (if truthyOpt pub then [str "  - Venue: " ++ pyToStr (pub.getD .jnull)] else [])
        ++ (if truthyOpt url then [str "  - Link: " ++ pyToStr (url.getD .jnull)] else [])
      | _ => [str "  - No structured entries were returned."]
    let context := (jGet skvs (str "context")).getD (.jobj [])
    let evidence : Option JValue :=
      match context with
      | .jobj ck => jGet ck (str "evidence")
      | _ => none
    let evParts : Except PyErr (List Str) :=
      match evidence with
      | some (.jarr evs) =>
        if evs.isEmpty = false then
          let sources := evs.filterMap (fun ev =>
            match ev with
            | .jobj evk =>
              match jGet evk (str "source") with
              | some v => if pyTruthy v then some v else none
              | none => none
            | _ => none)
          if sources.isEmpty = false then
            match strValues sources with
            | some ss => .ok [str "  - Evidence sources: " ++ List.intercalate (str ", ") ss]
            | none => .error (.typeError (str "sequence item: expected str instance"))
          else .ok []
        else .ok []
      | _ => .ok []
    let zParts :=
      match result.zotero with
      | some z =>
        let label := if z.existed then str "Existing Zotero item" else str "Added to Zotero"
        let line := str "  - Zotero: [" ++ label ++ str "](" ++ z.select_uri ++ str ")"
        let line2 :=
          match z.web_url with
          | some w => if w.isEmpty = false then line ++ str " ([Web](" ++ w ++ str "))" else line
          | none => line
        [line2]
      | none =>
        match result.zotero_error with
        | some e => if e.isEmpty = false then [str "  - Zotero sync failed: " ++ e] else []
        | none => []
    match evParts with
    | .ok evp => .ok ([head] ++ itemParts ++ evp ++ zParts)
    | .error e => .error e
  | _ => .error (.attrError (str "structured.get"))

/-- The result loop of `format_comment`. -/
def formatCommentParts : List ResearchResult → Except PyErr (List Str)
  | [] => .ok []
  | r :: rs =>
    match formatCommentEntry r with
    | .error e => .error e
    | .ok ps =>
      match formatCommentParts rs with
      | .error e => .error e
      | .ok qs => .ok (ps ++ qs)

/-- Function `format_comment` of `research_issue_agent.py`. -/
def format_comment (results : List ResearchResult) : Except PyErr Str :=
  if results.isEmpty then
    .ok (str "No unchecked articles required research at this time. The checklist remains unchanged.")
  else
    match formatCommentParts results with
    | .error e => .error e
    | .ok parts => .ok (joinLines ([str "### Article Research Results"] ++ parts))

/-- One numbered reference line of `format_topics_comment`. -/
def topicReferenceLine (idx : Nat) (entry : List (Str × JValue)) : Str :=
  let title := pyOr (jGet entry (str "title")) (.jstr (str "Untitled"))
  let venue := pyOrOpt (jGet entry (str "publicationTitle"))
    (pyOrOpt (jGet entry (str "conferenceName")) (jGet entry (str "publisher")))
  let link := pyOrOpt (jGet entry (str "url")) (jGet entry (str "doi"))
  let line := str "    " ++ natToStr idx ++ str ". " ++ pyToStr title
  let line2 := if truthyOpt venue then line ++ str " â€” " ++ pyToStr (venue.getD .jnull) else line
  if truthyOpt link then line2 ++ str " (" ++ pyToStr (link.getD .jnull) ++ str ")" else line2

/-- The reference list block of `format_topics_comment`, with 1-based
enumeration skipping non-dict entries. -/
def topicReferenceLines (idx : Nat) : List JValue → List Str
  | [] => []
  | entry :: rest =>
    match entry with
    | .jobj ekvs => topicReferenceLine idx ekvs :: topicReferenceLines (idx + 1) rest
    | _ => topicReferenceLines (idx + 1) rest

/-- The per-result block of `format_topics_comment`; total because every
lookup on the structured record is isinstance-guarded in the source. -/
def formatTopicEntry (result : TopicResearchResult) : List Str :=
  let topic := result.topic
  let head := str "- **" ++ topic.topic ++ str "**:"
  let focusParts :=
    if topic.details.isEmpty = false then
      [str "  - Focus points:"] ++ topic.details.map (fun d => str "    * " ++ d)
    else []
  let items : JValue :=
    match result.structured with
    | .jobj skvs => (jGet skvs (str "items")).getD (.jarr [])
    | _ => .jarr []
  let itemParts :=
    match items with
    | .jarr (e0 :: es) => [str "  - References:"] ++ topicReferenceLines 1 (e0 :: es)
    | _ => [str "  - No references were produced."]
  let zParts :=
    if result.zotero.isEmpty = false then
      [str "  - Zotero items:"] ++ result.zotero.map (fun sync =>
        let label := if sync.existed then str "Existing" else str "Added"
        let line := str "    * " ++ label ++ str ": " ++ sync.select_uri
        match sync.web_url with
        | some w => if w.isEmpty = false then line ++ str " (web: " ++ w ++ str ")" else line
        | none => line)
    else []
  let eParts :=
    if result.zotero_errors.isEmpty = false then
      [str "  - Zotero sync issues:"] ++ result.zotero_errors.map (fun err => str "    * " ++ err)
    else []
  let notes : List Str :=
    match result.structured with
    | .jobj skvs =>
      match (jGet skvs (str "context")).getD (.jobj []) with
      | .jobj ck =>
        match pyOrOpt (jGet ck (str "notes")) (jGet ck (str "summary")) with
        | some (.jarr xs) => xs.map pyToStr
        | some (.jstr s) => if (pyStrip s).isEmpty = false then [pyStrip s] else []
        | _ => []
      | _ => []
    | _ => []
  let nParts :=
    if notes.isEmpty = false then
      [str "  - Notes:"] ++ notes.map (fun note => str "    * " ++ note)
    else []
  [head] ++ focusParts ++ itemParts ++ zParts ++ eParts ++ nParts

/-- Function `format_topics_comment` of `research_issue_agent.py`. -/
def format_topics_comment (results : List TopicResearchResult) : Str :=
  if results.isEmpty then []
  else
    joinLines ([str "### Topic Research Results"] ++
      (results.map formatTopicEntry).flatten)

/-- Dataclass `ArticleTask` of `graph.py`. -/
structure ArticleTask where
  name : Str
  details : Str
  status : Str
deriving DecidableEq, Repr

/-- Property `ArticleTask.is_known`. -/
def ArticleTask.is_known (t : ArticleTask) : Bool := toLowerStr t.status = str "known"

/-- The literal `schema_description` block of `build_user_prompt` in
`graph.py` (dedented). -/
def schemaDescription : Str :=
  str "Final JSON schema (UTF-8, minified or pretty):\n\x7b\n  \"items\": [\n    \x7b\n      \"itemType\": \"journalArticle\" | \"conferencePaper\" | \"book\" | \"bookSection\" | \"report\" | \"thesis\" | \"webpage\" | \"presentation\" | \"videoRecording\" | \"podcast\",\n      \"title\": string,\n      \"creators\": [ \x7b\"firstName\": string, \"lastName\": string, \"creatorType\": string\x7d ],\n      \"date\": string | null,\n      \"publicationTitle\": string | null,\n      \"conferenceName\": string | null,\n      \"proceedingsTitle\": string | null,\n      \"publisher\": string | null,\n      \"institution\": string | null,\n      \"volume\": string | null,\n      \"issue\": string | null,\n      \"pages\": string | null,\n      \"doi\": string | null,\n      \"url\": string | null,\n      \"abstractNote\": string | null,\n      \"tags\": [string],\n      \"notes\": [string]\n    \x7d\n  ],\n  \"context\": \x7b\n    \"articleName\": string,\n    \"status\": \"known\" | \"unknown\",\n    \"evidence\": [\n      \x7b\n        \"source\": string,\n        \"snippet\": string\n      \x7d\n    ]\n  \x7d\n\x7d\nAlways include the \"context\" block with at least one evidence entry referencing the sources you used.\n"

/-- Function `build_user_prompt` of `graph.py`. -/
def build_user_prompt (task : ArticleTask) (note_summary : Str)
    (extra_instruction : Option Str) : Str :=
  let status_clause :=
    if task.is_known then str "known reference"
    else str "unknown reference that requires discovery"
  let validation_clause :=
    if task.is_known then
      str "Validate that the title and metadata you return align with the provided name/details; if you cannot confirm the match, keep researching rather than returning a mismatched work."
    else []
  let suggested_query := pyStrip (task.name ++ str " " ++ task.details)
  let prompt :=
    str "A " ++ status_clause ++
    str " needs metadata suitable for Zotero import.\nTranscript summary (for context):\n" ++
    note_summary ++ str "\n\nRequested entry:\n- Name: " ++ task.name ++
    str "\n- Details: " ++ task.details ++ str "\n- Status: " ++ task.status ++
    str "\n\nBegin by issuing a Tavily search using the query: \"" ++ suggested_query ++
    str "\".\nUse the Tavily search tool to gather supporting evidence as needed. " ++
    validation_clause ++ str "\n" ++ schemaDescription ++ str "\n"
  match extra_instruction with
  | some e => if e.isEmpty = false then prompt ++ str "\n\nCorrection guidance:\n" ++ pyStrip e else prompt
  | none => prompt

/-- Shape of the dict returned by `run_agent` of `article_agent_cli.py`:
the `output` value (if any) and the `content` attribute of each entry of
`messages` (if any). -/
structure AgentRaw where
  output : Option JValue
  messages : List (Option JValue)

/-- Function `_invoke_article_agent` of `research_issue_agent.py`.  The
research sub-agent (`build_graph` plus `run_agent`) is the oracle `runA`
taking the task, the composed user prompt and the iteration budget;
`jsonLoads` is the outcome of `json.loads` on string output (`none` when it
raises).  A missing output raises `RuntimeError`; unparsable string output
raises the uncaught `json.JSONDecodeError` (a `ValueError`). -/
def invoke_article_agent
    (runA : ArticleTask → Str → Nat → Except PyErr AgentRaw)
    (jsonLoads : Str → Option JValue)
    (task : ArticleTask) (summary_text : Str) (max_iterations : Nat)
    (extra_instruction : Option Str) : Except PyErr (JValue × JValue) :=
  let user_prompt := build_user_prompt task summary_text extra_instruction
  match runA task user_prompt max_iterations with
  | .error e => .error e
  | .ok result =>
    let output_text : Option JValue :=
      if isNoneJ result.output then
        match result.messages.getLast? with
        | some c => c
        | none => result.output
      else result.output
    if isNoneJ output_text then
      .error (.runtimeError (str "Article agent did not return output text."))
    else
      match output_text.getD .jnull with
      | .jstr s =>
        match jsonLoads s with
        | some v => .ok (v, .jstr s)
        | none => .error (.valueError (str "json.loads"))
      | v => .ok (v, v)

/-- Function `run_article_research` of `research_issue_agent.py`. -/
def run_article_research
    (runA : ArticleTask → Str → Nat → Except PyErr AgentRaw)
    (jsonLoads : Str → Option JValue)
    (article : IssueArticle) (summary_text : Str) (model : Str)
    (max_iterations : Nat) : Except PyErr ResearchResult :=
  let article_task : ArticleTask :=
    ⟨article.name, List.intercalate (str " ") article.details, article.status⟩
  match invoke_article_agent runA jsonLoads article_task summary_text max_iterations none with
  | .error e => .error e
  | .ok sr =>
    .ok { article_index := -1, article := article, structured := sr.1, raw_output := sr.2 }

/-- Function `run_topic_research` of `research_issue_agent.py`. -/
def run_topic_research
    (runA : ArticleTask → Str → Nat → Except PyErr AgentRaw)
    (jsonLoads : Str → Option JValue)
    (topic : IssueTopic) (summary_text : Str) (max_iterations : Nat) :
    Except PyErr TopicResearchResult :=
  let details_text := joinLines (topic.details.map (fun d => str "- " ++ d))
  let extra_instruction :=
    if details_text.isEmpty = false then
      str "You are researching a broader topic with multiple focus points. Ensure the JSON schema above is followed. For each item you return, align it with the focus points. Add helpful `notes` entries summarising how each reference supports the requested details. Focus points:\n" ++ details_text
    else []
  let article_task : ArticleTask :=
    ⟨topic.topic, List.intercalate (str " ") topic.details, str "unknown"⟩
  match invoke_article_agent runA jsonLoads article_task summary_text max_iterations
      (some extra_instruction) with
  | .error e => .error e
  | .ok sr =>
    .ok { topic_index := -1, topic := topic, structured := sr.1, raw_output := sr.2 }

/-- The external collaborators of the research nodes: the sub-agent, the
JSON parser, the environment and the Zotero client. -/
structure NodeOracles where
  runA : ArticleTask → Str → Nat → Except PyErr AgentRaw
  jsonLoads : Str → Option JValue
  env : Str → Option Str
  zclient : ZoteroClient

/-- Dataclass `ResearchState` of `research_issue_agent.py`. -/
structure ResearchState where
  repo : Str
  issue_number : Int
  issue_body : Option Str := none
  issue_title : Option Str := none
  summary_text : Str := []
  articles : List IssueArticle := []
  topics : List IssueTopic := []
  selected_indices : List Int := []
  selected_topic_indices : List Int := []
  results : List ResearchResult := []
  topic_results : List TopicResearchResult := []
  comment_body : Option Str := none
  updated_issue_body : Option Str := none
  article_comment : Option Str := none
  topic_comment : Option Str := none

/-- Python `a or b` on an optional string and a string default. -/
def orStrOpt (a : Option Str) (b : Str) : Str :=
  match a with
  | some s => if s.isEmpty then b else s
  | none => b

/-- The `for idx in state.selected_indices` loop of `research_articles_node`:
out-of-range indices are skipped; a sub-agent failure propagates; a
`ZoteroSyncError` from the sync is recorded on the result. -/
def researchArticlesLoop (oc : NodeOracles) (article_model : Str)
    (article_iterations : Nat) (st : ResearchState) :
    List Int → List ResearchResult → Except PyErr (List ResearchResult)
  | [], acc => .ok acc
  | idx :: rest, acc =>
    if idx < 0 ∨ (st.articles.length : Int) ≤ idx then
      researchArticlesLoop oc article_model article_iterations st rest acc
    else
      let article := st.articles.getD idx.toNat ⟨[], [], [], false, 0⟩
      match run_article_research oc.runA oc.jsonLoads article st.summary_text
          article_model article_iterations with
      | .error e => .error e
      | .ok research0 =>
        let research1 := { research0 with article_index := idx }
        match (sync_structured_item oc.env oc.zclient research1.structured).1 with
        | .ok sync_result =>
          researchArticlesLoop oc article_model article_iterations st rest
            (acc ++ [{ research1 with zotero := some sync_result }])
        | .error (.zoteroSyncError m) =>
          researchArticlesLoop oc article_model article_iterations st rest
            (acc ++ [{ research1 with zotero_error := some m }])
        | .error e => .error e

/-- Node `research_articles_node` of `build_research_graph`. -/
def research_articles_node (oc : NodeOracles) (article_model : Str)
    (article_iterations : Nat) (st : ResearchState) : Except PyErr ResearchState :=
  match researchArticlesLoop oc article_model article_iterations st st.selected_indices [] with
  | .error e => .error e
  | .ok results =>
    match format_comment results with
    | .error e => .error e
    | .ok comment =>
      .ok { st with
            results := results,
            article_comment := some comment,
            updated_issue_body := some (mark_articles_completed
              (orStrOpt st.issue_body [])
              (results.map (fun r => r.article_index))) }

/-- The per-entry Zotero loop of `research_topics_node`: non-dict entries are
skipped, `ZoteroSyncError` is collected, other exceptions propagate. -/
def topicSyncLoop (oc : NodeOracles) (skvs : List (Str × JValue)) :
    List JValue → List ZoteroSyncResult → List Str →
    Except PyErr (List ZoteroSyncResult × List Str)
  | [], zs, es => .ok (zs, es)
  | entry :: rest, zs, es =>
    match entry with
    | .jobj _ =>
      let payload : JValue :=
        .jobj [(str "items", .jarr [entry]),
               (str "context", (jGet skvs (str "context")).getD .jnull)]
      match (sync_structured_item oc.env oc.zclient payload).1 with
      | .ok s => topicSyncLoop oc skvs rest (zs ++ [s]) es
      | .error (.zoteroSyncError m) => topicSyncLoop oc skvs rest zs (es ++ [m])
      | .error e => .error e
    | _ => topicSyncLoop oc skvs rest zs es

/-- The `for idx in state.selected_topic_indices` loop of
`research_topics_node`. -/
def researchTopicsLoop (oc : NodeOracles) (article_iterations : Nat)
    (st : ResearchState) :
    List Int → List TopicResearchResult → Except PyErr (List TopicResearchResult)
  | [], acc => .ok acc
  | idx :: rest, acc =>
    if idx < 0 ∨ (st.topics.length : Int) ≤ idx then
      researchTopicsLoop oc article_iterations st rest acc
    else
      let topic := st.topics.getD idx.toNat ⟨[], [], false, 0⟩
      match run_topic_research oc.runA oc.jsonLoads topic st.summary_text article_iterations with
      | .error e => .error e
      | .ok tr0 =>
        let tr1 := { tr0 with topic_index := idx }
        let entriesE : Except PyErr (List JValue × List (Str × JValue)) :=
          match tr1.structured with
          | .jobj skvs =>
            match pyIterList ((jGet skvs (str "items")).getD (.jarr [])) with
            | .ok es => .ok (es, skvs)
            | .error e => .error e
          | _ => .ok ([], [])
        match entriesE with
        | .error e => .error e
        | .ok (entries, skvs) =>
          match topicSyncLoop oc skvs entries [] [] with
          | .error e => .error e
          | .ok (zs, es) =>
            researchTopicsLoop oc article_iterations st rest
              (acc ++ [{ tr1 with zotero := zs, zotero_errors := es }])

/-- Node `research_topics_node` of `build_research_graph`. -/
def research_topics_node (oc : NodeOracles) (article_iterations : Nat)
    (st : ResearchState) : Except PyErr ResearchState :=
  if st.selected_topic_indices.isEmpty then .ok { st with topic_results := [] }
  else
    match researchTopicsLoop oc article_iterations st st.selected_topic_indices [] with
    | .error e => .error e
    | .ok results =>
      let updated_body := orStrOpt st.updated_issue_body (orStrOpt st.issue_body [])
      .ok { st with
            topic_results := results,
            topic_comment := some (format_topics_comment results),
            updated_issue_body := some (mark_topics_completed updated_body
              (results.map (fun r => r.topic_index))) }

/-- Node `select_articles_node` of `build_research_graph`. -/
def select_articles_node (llm : Str → Option JValue) (st : ResearchState) :
    Except PyErr ResearchState :=
  if st.articles.isEmpty then .ok { st with selected_indices := [] }
  else
    match select_articles_with_llm llm (st.issue_title.getD []) st.summary_text st.articles with
    | .error e => .error e
    | .ok sel => .ok { st with selected_indices := sel }

/-- Node `select_topics_node` of `build_research_graph`. -/
def select_topics_node (llm : Str → Option JValue) (st : ResearchState) :
    Except PyErr ResearchState :=
  if st.topics.isEmpty then .ok { st with selected_topic_indices := [] }
  else
    match select_topics_with_llm llm (st.issue_title.getD []) st.summary_text st.topics with
    | .error e => .error e
    | .ok sel => .ok { st with selected_topic_indices := sel }

/-- Issue data as consumed by `fetch_issue_node`: `issue.get("body", "")`
resolved to a string and `issue.get("title")`. -/
structure IssueData where
  body : Str
  title : Option Str

/-- The GitHub REST wrapper `GitHubClient` as an oracle; errors stand for
`requests` exceptions raised by `raise_for_status`. -/
structure GitHubClientO where
  get_issue : Int → Except Str IssueData
  comment_on_issue : Int → Str → Except Str Unit
  update_issue_body : Int → Str → Except Str Unit

/-- Calls made to the issue tracker.  `comment` and `patch` are the two
mutating operations. -/
inductive TrackerCall where
  | getIssue
  | comment (body : Str)
  | patch (body : Str)
deriving DecidableEq, Repr

/-- Node `fetch_issue_node` of `build_research_graph`. -/
def fetch_issue_node (gh : GitHubClientO) (st : ResearchState) :
    Except PyErr ResearchState × List TrackerCall :=
  match gh.get_issue st.issue_number with
  | .error exc =>
    (.error (.runtimeError (str "Failed to fetch issue #" ++ (toString st.issue_number).data ++
      str " from " ++ st.repo ++ str ": " ++ exc)), [.getIssue])
  | .ok issue =>
    let body := issue.body
    (.ok { st with
           issue_body := some body,
           issue_title := some (orStrOpt issue.title []),
           summary_text := extract_issue_summary body,
           articles := parse_issue_articles body,
           topics := parse_issue_topics body }, [.getIssue])

/-- The body-patching tail of `update_issue_node`. -/
def updateIssuePatch (gh : GitHubClientO) (st : ResearchState)
    (log : List TrackerCall) : Except PyErr ResearchState × List TrackerCall :=
  match st.updated_issue_body with
  | some ub =>
    if ub.isEmpty = false ∧ ub ≠ orStrOpt st.issue_body [] then
      match gh.update_issue_body st.issue_number ub with
      | .error exc => (.error (.runtimeError exc), log ++ [.patch ub])
      | .ok _ => (.ok st, log ++ [.patch ub])
    else (.ok st, log)
  | none => (.ok st, log)

/-- Node `update_issue_node` of `build_research_graph`: concatenate the
non-empty comment sections, post once if non-empty, patch once if the
candidate body differs from the original. -/
def update_issue_node (gh : GitHubClientO) (st : ResearchState) :
    Except PyErr ResearchState × List TrackerCall :=
  let sections : List Str :=
    (match st.article_comment with
     | some c => if c.isEmpty then [] else [c]
     | none => []) ++
    (match st.topic_comment with
     | some c => if c.isEmpty then [] else [c]
     | none => [])
  let comment_text := List.intercalate (str "\n\n") (sections.filter (fun s => s.isEmpty = false))
  let comment_body : Option Str := if comment_text.isEmpty then none else some comment_text
  let st1 := { st with comment_body := comment_body }
  match comment_body with
  | some cb =>
    match gh.comment_on_issue st.issue_number cb with
    | .error exc => (.error (.runtimeError exc), [.comment cb])
    | .ok _ => updateIssuePatch gh st1 [.comment cb]
  | none => updateIssuePatch gh st1 []

/-- The stages of `build_research_graph`. -/
inductive Stage where
  | fetch_issue
  | select_articles
  | research_articles
  | select_topics
  | research_topics
  | update_issue
deriving DecidableEq, Repr

/-- Execution of one graph node, with the tracker calls it performs. -/
def runStage (gh : GitHubClientO) (llm : Str → Option JValue) (oc : NodeOracles)
    (article_model : Str) (article_iterations : Nat) :
    Stage → ResearchState → Except PyErr ResearchState × List TrackerCall
  | .fetch_issue, st => fetch_issue_node gh st
  | .select_articles, st => (select_articles_node llm st, [])
  | .research_articles, st => (research_articles_node oc article_model article_iterations st, [])
  | .select_topics, st => (select_topics_node llm st, [])
  | .research_topics, st => (research_topics_node oc article_iterations st, [])
  | .update_issue, st => update_issue_node gh st

/-- The edge relation of `build_research_graph`: the conditional edges mirror
`branch_after_article_selection` and `branch_after_topic_selection`; the
finish point `update_issue` has no successor. -/
def nextStage : Stage → ResearchState → Option Stage
  | .fetch_issue, _ => some .select_articles
  | .select_articles, st =>
    if st.selected_indices.isEmpty then some .select_topics else some .research_articles
  | .research_articles, _ => some .select_topics
  | .select_topics, st =>
    if st.selected_topic_indices.isEmpty then some .update_issue else some .research_topics
  | .research_topics, _ => some .update_issue
  | .update_issue, _ => none

/-- Fuel-bounded execution of the graph from a stage.  When `stop` names a
stage, execution halts just before entering it (an interrupted run). -/
def runFrom (gh : GitHubClientO) (llm : Str → Option JValue) (oc : NodeOracles)
    (article_model : Str) (article_iterations : Nat) (stop : Option Stage) :
    Nat → Stage → ResearchState → Except PyErr ResearchState × List TrackerCall
  | 0, _, st => (.ok st, [])
  | n + 1, s, st =>
    if stop = some s then (.ok st, [])
    else
      match runStage gh llm oc article_model article_iterations s st with
      | (.error e, log) => (.error e, log)
      | (.ok st', log) =>
        match nextStage s st' with
        | none => (.ok st', log)
        | some s' =>
          match runFrom gh llm oc article_model article_iterations stop n s' st' with
          | (r, log2) => (r, log ++ log2)

/-- A full run of the compiled research graph (`graph.compile().invoke`);
the fuel 25 is the langgraph default recursion limit and exceeds the longest
path (6 stages). -/
def run_research_graph (gh : GitHubClientO) (llm : Str → Option JValue)
    (oc : NodeOracles) (article_model : Str) (article_iterations : Nat)
    (st0 : ResearchState) : Except PyErr ResearchState × List TrackerCall :=
  runFrom gh llm oc article_model article_iterations none 25 .fetch_issue st0

/-- A run interrupted immediately before the `update_issue` stage. -/
def runBeforeUpdate (gh : GitHubClientO) (llm : Str → Option JValue)
    (oc : NodeOracles) (article_model : Str) (article_iterations : Nat)
    (st0 : ResearchState) : Except PyErr ResearchState × List TrackerCall :=
  runFrom gh llm oc article_model article_iterations (some .update_issue) 25 .fetch_issue st0

/-- The tracker mutations among a list of tracker calls. -/
def mutationsOf (log : List TrackerCall) : List TrackerCall :=
  log.filter (fun c => match c with | .getIssue => false | _ => true)

/-- A Zotero client oracle whose queries find nothing and whose template and
creation calls fail. -/
def trivialClient : ZoteroClient :=
  { initError := none,
    item_template := fun _ => .error (str "offline"),
    queryEverything := fun _ => .ok [],
    queryTitleCreatorYear := fun _ => .ok [],
    create_items := fun _ => .error (str "offline") }

/-- Node oracles for runs that never reach an external call. -/
def trivialOracles : NodeOracles :=
  { runA := fun _ _ _ => .error (.runtimeError (str "unused")),
    jsonLoads := fun _ => none,
    env := fun _ => none,
    zclient := trivialClient }

/-- Node oracles whose sub-agent raises for the article named `A` and
succeeds with an empty record for any other item. -/
def failFirstOracles : NodeOracles :=
  { runA := fun task _ _ =>
      if task.name = str "A" then .error (.runtimeError (str "boom"))
      else .ok ⟨some (.jobj []), []⟩,
    jsonLoads := fun _ => none,
    env := fun _ => none,
    zclient := trivialClient }

/-- A run state with two unchecked articles, both selected. -/
def stTwoArticles : ResearchState :=
  { repo := str "r", issue_number := 1,
    articles := [⟨str "A", str "unknown", [], false, 0⟩, ⟨str "B", str "unknown", [], false, 1⟩],
    selected_indices := [0, 1] }

/-- A run state with nothing selected. -/
def stEmptySel : ResearchState := { repo := str "r", issue_number := 1 }

/-- The state `research_articles_node` produces from `stEmptySel`. -/
def stEmptyDone : ResearchState :=
  { stEmptySel with
    article_comment := some (str "No unchecked articles required research at this time. The checklist remains unchanged."),
    updated_issue_body := some [] }

/-- An environment with Zotero credentials set. -/
def envZ : Str → Option Str := fun k =>
  if k = str "ZOTERO_LIBRARY_ID" then some (str "123")
  else if k = str "ZOTERO_API_KEY" then some (str "k")
  else none

/-- A Zotero client oracle whose queries find nothing and whose creation
succeeds with identifier `KEY1`. -/
def clientZCreate : ZoteroClient :=
  { initError := none,
    item_template := fun _ => .ok [(str "title", .jnull)],
    queryEverything := fun _ => .ok [],
    queryTitleCreatorYear := fun _ => .ok [],
    create_items := fun _ => .ok (.jobj [(str "success", .jobj [(str "0", .jstr (str "KEY1"))])]) }

/-- A one-item structured record for the sync witnesses. -/
def skvsZ : List (Str × JValue) := [(str "items", .jarr [.jobj [(str "title", .jstr (str "T"))]])]

/-- The entry dict of `skvsZ`. -/
def ekvsZ : List (Str × JValue) := [(str "title", .jstr (str "T"))]

/-- The sync outcome `clientZCreate` produces for `skvsZ`. -/
def rZ : ZoteroSyncResult :=
  ⟨str "KEY1", str "zotero://select/items/KEY1",
   some (str "https://www.zotero.org/users/123/items/KEY1"), false⟩

section ParserInvDefs

variable {α : Type} (chk : α → Bool) (lidx : α → Nat)

/-- Evidence that a parsed checklist item points at a checklist line of the
line list, with its checked flag reflecting the box character. -/
abbrev ItemOk (lines : List Str) (a : α) : Prop :=
  lidx a < lines.length ∧
  ∃ c rest, matchArticleLine (pyStrip (pyRstrip (lines.getD (lidx a) []))) = some (c, rest) ∧
    chk a = decide (Char.toLower c = 'x')

/-- Parsing-loop invariant: finalized and current items carry line evidence,
their line indices are below the cursor and strictly increasing. -/
abbrev StOk (lines : List Str) (i : Nat) (st : ParseSt α) : Prop :=
  (∀ a ∈ st.acc, ItemOk chk lidx lines a ∧ lidx a < i) ∧
  st.acc.Pairwise (fun a b => lidx a < lidx b) ∧
  (∀ a, st.cur = some a → ItemOk chk lidx lines a ∧ lidx a < i ∧
    ∀ b ∈ st.acc, lidx b < lidx a)

end ParserInvDefs

/-- Flip an item when the flag of its source line is set. -/
def flipIf {α : Type} (lidx : α → Nat) (flip : α → α) (F : Nat → Bool) (a : α) : α :=
  if F (lidx a) then flip a else a

/-- Relation between the original line list and the marked line list: the
lines whose flag is set are unchecked checklist lines with their first
`[ ]` replaced by `[x]`; all other lines coincide. -/
def LinesRel (F : Nat → Bool) : Nat → List Str → List Str → Prop
  | _, [], ls' => ls' = []
  | i, l :: t, ls' =>
      ∃ t', ls' = (if F i then replaceFirst (str "[ ]") (str "[x]") l else l) :: t' ∧
        (F i = true → ∃ rest, matchArticleLine (pyStrip (pyRstrip l)) = some (' ', rest)) ∧
        LinesRel F (i + 1) t t'

/-- Relation between the parser states reached on the original and on the
marked line lists. -/
abbrev StRel {α : Type} (lidx : α → Nat) (flip : α → α) (F : Nat → Bool)
    (st st' : ParseSt α) : Prop :=
  st'.inSec = st.inSec ∧ st'.curDetails = st.curDetails ∧
  st'.cur = st.cur.map (flipIf lidx flip F) ∧
  st'.acc = st.acc.map (flipIf lidx flip F)

/-- C7 (confirmed): on a body whose articles section holds one unchecked
article with a trailing `(known)` tag and one checked article with no tag,
the parser returns exactly two articles: the first with status `known` and
`checked = false`, the second with the default status `unknown` and
`checked = true`, the tag stripped from the label. -/
theorem parse_known_unknown_example :
    parse_issue_articles (str "## Articles to Find\n- [ ] Alpha (known)\n- [x] Beta") =
      [⟨str "Alpha", str "known", [], false, 1⟩,
       ⟨str "Beta", str "unknown", [], true, 2⟩] := by
  decide

/-- C2 counterexample: a parsable selector response that lacks the `selected`
field makes the selector return the empty list, not the full set `[0]` of
unchecked indices the claim requires. -/
theorem selector_missing_selected_empty :
    select_articles_with_llm (fun _ => some (.jobj [])) (str "T") []
      [⟨str "A", str "unknown", [], false, 0⟩] = .ok [] ∧
    ([] : List Int) ≠ [(0 : Int)] := by
  constructor
  · rfl
  · decide

/-- C2 (amended): the process-everything fallback fires only when
`json.loads` raises (or the `selected` value is not iterable); a parsable
response with `selected` missing yields the empty selection, and non-integer
entries of a `selected` array are silently filtered out rather than
triggering the fallback.  Stated for both selector functions. -/
theorem selector_fallback_policy
    (llm : Str → Option JValue) (title summary : Str)
    (articles : List IssueArticle) (topics : List IssueTopic)
    (hA : articles.enum.filter (fun pa => pa.2.checked = false) ≠ [])
    (hT : topics.enum.filter (fun pa => pa.2.checked = false) ≠ []) :
    (llm (selectorPromptArticles title summary
        (articles.enum.filter (fun pa => pa.2.checked = false))) = none →
      select_articles_with_llm llm title summary articles =
        .ok ((articles.enum.filter (fun pa => pa.2.checked = false)).map
          (fun pa => (pa.1 : Int)))) ∧
    (∀ kvs, llm (selectorPromptArticles title summary
        (articles.enum.filter (fun pa => pa.2.checked = false))) = some (.jobj kvs) →
      jGet kvs (str "selected") = none →
      select_articles_with_llm llm title summary articles = .ok []) ∧
    (∀ kvs xs, llm (selectorPromptArticles title summary
        (articles.enum.filter (fun pa => pa.2.checked = false))) = some (.jobj kvs) →
      jGet kvs (str "selected") = some (.jarr xs) →
      select_articles_with_llm llm title summary articles = .ok (xs.filterMap jIntOf)) ∧
    (llm (selectorPromptTopics title summary
        (topics.enum.filter (fun pa => pa.2.checked = false))) = none →
      select_topics_with_llm llm title summary topics =
        .ok ((topics.enum.filter (fun pa => pa.2.checked = false)).map
          (fun pa => (pa.1 : Int)))) ∧
    (∀ kvs, llm (selectorPromptTopics title summary
        (topics.enum.filter (fun pa => pa.2.checked = false))) = some (.jobj kvs) →
      jGet kvs (str "selected") = none →
      select_topics_with_llm llm title summary topics = .ok []) ∧
    (∀ kvs xs, llm (selectorPromptTopics title summary
        (topics.enum.filter (fun pa => pa.2.checked = false))) = some (.jobj kvs) →
      jGet kvs (str "selected") = some (.jarr xs) →
      select_topics_with_llm llm title summary topics = .ok (xs.filterMap jIntOf)) := by
  refine ⟨?_, ?_, ?_, ?_, ?_, ?_⟩
  · intro h
    simp only [select_articles_with_llm, if_neg hA, h, selectorDecode]
  · intro kvs h hsel
    simp only [select_articles_with_llm, if_neg hA, h, selectorDecode, hsel,
      Option.getD_none, List.filterMap_nil]
  · intro kvs xs h hsel
    simp only [select_articles_with_llm, if_neg hA, h, selectorDecode, hsel,
      Option.getD_some]
  · intro h
    simp only [select_topics_with_llm, if_neg hT, h, selectorDecode]
  · intro kvs h hsel
    simp only [select_topics_with_llm, if_neg hT, h, selectorDecode, hsel,
      Option.getD_none, List.filterMap_nil]
  · intro kvs xs h hsel
    simp only [select_topics_with_llm, if_neg hT, h, selectorDecode, hsel,
      Option.getD_some]

/-- C2 witness: the fallback conjunct evaluated on one unchecked article with
a selector whose response never parses. -/
theorem selector_fallback_policy_witness :
    select_articles_with_llm (fun _ => none) (str "T") []
      [⟨str "A", str "unknown", [], false, 0⟩] = .ok [(0 : Int)] :=
  (selector_fallback_policy (fun _ => none) (str "T") []
    [⟨str "A", str "unknown", [], false, 0⟩]
    [⟨str "t", [], false, 0⟩] (by decide) (by decide)).1 rfl

/-- A successful dispatch keeps the article it was given. -/
theorem run_article_research_ok_article
    (runA : ArticleTask → Str → Nat → Except PyErr AgentRaw)
    (jl : Str → Option JValue) (a : IssueArticle) (s : Str) (m : Str) (it : Nat)
    (r : ResearchResult) (h : run_article_research runA jl a s m it = .ok r) :
    r.article = a := by
  rcases hi : invoke_article_agent runA jl
      ⟨a.name, List.intercalate (str " ") a.details, a.status⟩ s it none with e | sr
  · simp only [run_article_research, hi] at h
    exact absurd h (by simp)
  · simp only [run_article_research, hi] at h
    cases h
    rfl

/-- A successful topic dispatch keeps the topic it was given. -/
theorem run_topic_research_ok_topic
    (runA : ArticleTask → Str → Nat → Except PyErr AgentRaw)
    (jl : Str → Option JValue) (t : IssueTopic) (s : Str) (it : Nat)
    (r : TopicResearchResult) (h : run_topic_research runA jl t s it = .ok r) :
    r.topic = t := by
  rcases hi : invoke_article_agent runA jl
      ⟨t.topic, List.intercalate (str " ") t.details, str "unknown"⟩ s it
      (some (if (joinLines (t.details.map (fun d => str "- " ++ d))).isEmpty = false then
        str "You are researching a broader topic with multiple focus points. Ensure the JSON schema above is followed. For each item you return, align it with the focus points. Add helpful `notes` entries summarising how each reference supports the requested details. Focus points:\n" ++ joinLines (t.details.map (fun d => str "- " ++ d))
      else [])) with e | sr
  · simp only [run_topic_research, hi] at h
    exact absurd h (by simp)
  · simp only [run_topic_research, hi] at h
    cases h
    rfl

/-- When the dispatch loop of `research_articles_node` completes, every
in-range selected index had a successful sub-agent dispatch: a dispatch
failure necessarily aborts the loop. -/
theorem researchArticlesLoop_ok_isOk (oc : NodeOracles) (am : Str) (ai : Nat)
    (st : ResearchState) :
    ∀ (sel : List Int) (acc res : List ResearchResult),
      researchArticlesLoop oc am ai st sel acc = .ok res →
      ∀ idx ∈ sel, ¬(idx < 0 ∨ (st.articles.length : Int) ≤ idx) →
        (run_article_research oc.runA oc.jsonLoads
          (st.articles.getD idx.toNat ⟨[], [], [], false, 0⟩)
          st.summary_text am ai).isOk = true := by
  intro sel
  induction sel with
  | nil => intro acc res h idx hm; simp at hm
  | cons i rest ih =>
    intro acc res h idx hm hrange
    simp only [researchArticlesLoop] at h
    by_cases hi : i < 0 ∨ (st.articles.length : Int) ≤ i
    · rw [if_pos hi] at h
      rcases List.mem_cons.mp hm with rfl | hm2
      · exact absurd hi hrange
      · exact ih acc res h idx hm2 hrange
    · rw [if_neg hi] at h
      rcases hd : run_article_research oc.runA oc.jsonLoads
          (st.articles.getD i.toNat ⟨[], [], [], false, 0⟩) st.summary_text am ai with e | r0
      · simp only [hd] at h
        exact absurd h (by simp)
      · simp only [hd] at h
        rcases List.mem_cons.mp hm with rfl | hm2
        · rw [hd]
          rfl
        · rcases hs : (sync_structured_item oc.env oc.zclient r0.structured).1 with e | s
          · rcases e with m | m | m | m | m <;> simp only [hs] at h
            · exact absurd h (by simp)
            · exact absurd h (by simp)
            · exact absurd h (by simp)
            · exact absurd h (by simp)
            · exact ih _ res h idx hm2 hrange
          · simp only [hs] at h
            exact ih _ res h idx hm2 hrange

/-- Results accumulated by the dispatch loop of `research_articles_node`
refer to in-range positions, carry the article at that position, and record
either a sync outcome or a sync error string. -/
theorem researchArticlesLoop_ok_results (oc : NodeOracles) (am : Str) (ai : Nat)
    (st : ResearchState) :
    ∀ (sel : List Int) (acc res : List ResearchResult),
      researchArticlesLoop oc am ai st sel acc = .ok res →
      (∀ r ∈ acc, 0 ≤ r.article_index ∧ r.article_index < (st.articles.length : Int) ∧
        r.article = st.articles.getD r.article_index.toNat ⟨[], [], [], false, 0⟩ ∧
        (r.zotero.isSome ∨ r.zotero_error.isSome)) →
      ∀ r ∈ res, 0 ≤ r.article_index ∧ r.article_index < (st.articles.length : Int) ∧
        r.article = st.articles.getD r.article_index.toNat ⟨[], [], [], false, 0⟩ ∧
        (r.zotero.isSome ∨ r.zotero_error.isSome) := by
  intro sel
  induction sel with
  | nil =>
    intro acc res h hacc
    simp only [researchArticlesLoop] at h
    cases h
    exact hacc
  | cons i rest ih =>
    intro acc res h hacc
    simp only [researchArticlesLoop] at h
    by_cases hi : i < 0 ∨ (st.articles.length : Int) ≤ i
    · rw [if_pos hi] at h
      exact ih acc res h hacc
    · rw [if_neg hi] at h
      rcases hd : run_article_research oc.runA oc.jsonLoads
          (st.articles.getD i.toNat ⟨[], [], [], false, 0⟩) st.summary_text am ai with e | r0
      · simp only [hd] at h
        exact absurd h (by simp)
      · simp only [hd] at h
        have harticle : r0.article = st.articles.getD i.toNat ⟨[], [], [], false, 0⟩ :=
          run_article_research_ok_article _ _ _ _ _ _ _ hd
        push_neg at hi
        rcases hs : (sync_structured_item oc.env oc.zclient r0.structured).1 with e | s
        · rcases e with m | m | m | m | m <;> simp only [hs] at h
          · exact absurd h (by simp)
          · exact absurd h (by simp)
          · exact absurd h (by simp)
          · exact absurd h (by simp)
          · refine ih _ res h ?_
            intro r hr
            rcases List.mem_append.mp hr with hr1 | hr2
            · exact hacc r hr1
            · rcases List.mem_singleton.mp hr2 with rfl
              refine ⟨hi.1, hi.2, ?_, Or.inr rfl⟩
              simpa using harticle
        · simp only [hs] at h
          refine ih _ res h ?_
          intro r hr
          rcases List.mem_append.mp hr with hr1 | hr2
          · exact hacc r hr1
          · rcases List.mem_singleton.mp hr2 with rfl
            refine ⟨hi.1, hi.2, ?_, Or.inl rfl⟩
            simpa using harticle

/-- Results accumulated by the dispatch loop of `research_topics_node` refer
to in-range positions and carry the topic at that position. -/
theorem researchTopicsLoop_ok_results (oc : NodeOracles) (ai : Nat)
    (st : ResearchState) :
    ∀ (sel : List Int) (acc res : List TopicResearchResult),
      researchTopicsLoop oc ai st sel acc = .ok res →
      (∀ r ∈ acc, 0 ≤ r.topic_index ∧ r.topic_index < (st.topics.length : Int) ∧
        r.topic = st.topics.getD r.topic_index.toNat ⟨[], [], false, 0⟩) →
      ∀ r ∈ res, 0 ≤ r.topic_index ∧ r.topic_index < (st.topics.length : Int) ∧
        r.topic = st.topics.getD r.topic_index.toNat ⟨[], [], false, 0⟩ := by
  intro sel
  induction sel with
  | nil =>
    intro acc res h hacc
    simp only [researchTopicsLoop] at h
    cases h
    exact hacc
  | cons i rest ih =>
    intro acc res h hacc
    simp only [researchTopicsLoop] at h
    by_cases hi : i < 0 ∨ (st.topics.length : Int) ≤ i
    · rw [if_pos hi] at h
      exact ih acc res h hacc
    · rw [if_neg hi] at h
      rcases hd : run_topic_research oc.runA oc.jsonLoads
          (st.topics.getD i.toNat ⟨[], [], false, 0⟩) st.summary_text ai with e | tr0
      · simp only [hd] at h
        exact absurd h (by simp)
      · simp only [hd] at h
        have htopic : tr0.topic = st.topics.getD i.toNat ⟨[], [], false, 0⟩ :=
          run_topic_research_ok_topic _ _ _ _ _ _ hd
        push_neg at hi
        rcases he : (match tr0.structured with
          | JValue.jobj skvs =>
            match pyIterList ((jGet skvs (str "items")).getD (.jarr [])) with
            | .ok es => Except.ok (es, skvs)
            | .error e => Except.error e
          | _ => Except.ok (([] : List JValue), ([] : List (Str × JValue)))) with e | p
        · simp only [he] at h
          exact absurd h (by simp)
        · simp only [he] at h
          rcases hsl : topicSyncLoop oc p.2 p.1 [] [] with e | zse
          · simp only [hsl] at h
            exact absurd h (by simp)
          · simp only [hsl] at h
            refine ih _ res h ?_
            intro r hr
            rcases List.mem_append.mp hr with hr1 | hr2
            · exact hacc r hr1
            · rcases List.mem_singleton.mp hr2 with rfl
              exact ⟨hi.1, hi.2, by simpa using htopic⟩

/-- C1 counterexample: with two unchecked articles both selected and a
sub-agent that raises on the first and would succeed on the second, the
research node propagates the exception and the run aborts; the failing item
is not dropped with the run continuing, as the claim states. -/
theorem research_node_aborts_on_failure :
    research_articles_node failFirstOracles (str "m") 1 stTwoArticles =
      .error (.runtimeError (str "boom")) := by
  rfl

/-- C1 (amended): a research sub-agent failure on any selected in-range item
prevents `research_articles_node` from completing — the exception propagates
to the workflow and no per-item isolation applies; only reference-sync
failures are isolated, being recorded per item as a sync outcome or an error
string while the run continues. -/
theorem research_failure_propagates
    (oc : NodeOracles) (am : Str) (ai : Nat) (st st' : ResearchState)
    (h : research_articles_node oc am ai st = .ok st') :
    (∀ idx ∈ st.selected_indices, ¬(idx < 0 ∨ (st.articles.length : Int) ≤ idx) →
      (run_article_research oc.runA oc.jsonLoads
        (st.articles.getD idx.toNat ⟨[], [], [], false, 0⟩)
        st.summary_text am ai).isOk = true) ∧
    (∀ r ∈ st'.results, r.zotero.isSome ∨ r.zotero_error.isSome) := by
  rcases hl : researchArticlesLoop oc am ai st st.selected_indices [] with e | results
  · simp only [research_articles_node, hl] at h
    exact absurd h (by simp)
  · simp only [research_articles_node, hl] at h
    rcases hc : format_comment results with e | comment
    · simp only [hc] at h
      exact absurd h (by simp)
    · simp only [hc] at h
      cases h
      constructor
      · intro idx hm hr
        exact researchArticlesLoop_ok_isOk oc am ai st st.selected_indices [] results hl idx hm hr
      · intro r hr
        exact (researchArticlesLoop_ok_results oc am ai st st.selected_indices [] results hl
          (by simp) r (by simpa using hr)).2.2.2

/-- C1 witness: the amended theorem applied to a run with nothing selected,
which the node completes. -/
theorem research_failure_propagates_witness :
    (∀ idx ∈ stEmptySel.selected_indices,
      ¬(idx < 0 ∨ (stEmptySel.articles.length : Int) ≤ idx) →
      (run_article_research trivialOracles.runA trivialOracles.jsonLoads
        (stEmptySel.articles.getD idx.toNat ⟨[], [], [], false, 0⟩)
        stEmptySel.summary_text (str "m") 1).isOk = true) ∧
    (∀ r ∈ stEmptyDone.results, r.zotero.isSome ∨ r.zotero_error.isSome) :=
  research_failure_propagates trivialOracles (str "m") 1 stEmptySel stEmptyDone rfl

/-- C10 (confirmed): the research nodes skip selected indices that are
negative or not below the item-list length, so every recorded result refers
to a valid position and carries exactly the item at that position. -/
theorem research_nodes_in_bounds
    (oc : NodeOracles) (am : Str) (ai : Nat) (st stA stT : ResearchState)
    (hA : research_articles_node oc am ai st = .ok stA)
    (hT : research_topics_node oc ai st = .ok stT) :
    (∀ r ∈ stA.results, 0 ≤ r.article_index ∧ r.article_index < (st.articles.length : Int) ∧
      r.article = st.articles.getD r.article_index.toNat ⟨[], [], [], false, 0⟩) ∧
    (∀ r ∈ stT.topic_results, 0 ≤ r.topic_index ∧ r.topic_index < (st.topics.length : Int) ∧
      r.topic = st.topics.getD r.topic_index.toNat ⟨[], [], false, 0⟩) := by
  constructor
  · rcases hl : researchArticlesLoop oc am ai st st.selected_indices [] with e | results
    · simp only [research_articles_node, hl] at hA
      exact absurd hA (by simp)
    · simp only [research_articles_node, hl] at hA
      rcases hc : format_comment results with e | comment
      · simp only [hc] at hA
        exact absurd hA (by simp)
      · simp only [hc] at hA
        cases hA
        intro r hr
        have := researchArticlesLoop_ok_results oc am ai st st.selected_indices [] results hl
          (by simp) r (by simpa using hr)
        exact ⟨this.1, this.2.1, this.2.2.1⟩
  · by_cases hsel : st.selected_topic_indices.isEmpty
    · simp only [research_topics_node, hsel, if_pos] at hT
      cases hT
      intro r hr
      simp at hr
    · simp only [research_topics_node, hsel] at hT
      rcases hl : researchTopicsLoop oc ai st st.selected_topic_indices [] with e | results
      · simp only [hl] at hT
        exact absurd hT (by simp)
      · simp only [hl] at hT
        cases hT
        intro r hr
        exact researchTopicsLoop_ok_results oc ai st st.selected_topic_indices [] results hl
          (by simp) r (by simpa using hr)

/-- C10 witness: both nodes applied to a run with nothing selected. -/
theorem research_nodes_in_bounds_witness :
    (∀ r ∈ stEmptyDone.results, 0 ≤ r.article_index ∧
      r.article_index < (stEmptySel.articles.length : Int) ∧
      r.article = stEmptySel.articles.getD r.article_index.toNat ⟨[], [], [], false, 0⟩) ∧
    (∀ r ∈ stEmptySel.topic_results, 0 ≤ r.topic_index ∧
      r.topic_index < (stEmptySel.topics.length : Int) ∧
      r.topic = stEmptySel.topics.getD r.topic_index.toNat ⟨[], [], false, 0⟩) :=
  research_nodes_in_bounds trivialOracles (str "m") 1 stEmptySel stEmptyDone stEmptySel rfl rfl

/-- The dedup pass of the sync performs query calls only, never a create. -/
theorem choose_existing_item_no_create (client : ZoteroClient) (doi title : Option JValue) :
    ∀ zc ∈ (choose_existing_item client doi title).2, zc ≠ ZCall.create := by
  unfold choose_existing_item
  by_cases h1 : truthyOpt doi = true
  · simp only [h1, if_true]
    rcases hq : client.queryEverything (doi.getD .jnull) with e | ms
    · simp
    · rcases ms with _ | ⟨m, ms⟩
      · by_cases h2 : truthyOpt title = true
        · simp only [h2, if_true]
          rcases hq2 : client.queryTitleCreatorYear (title.getD .jnull) with e | ms2
          · simp
          · rcases ms2 with _ | ⟨m2, ms2⟩ <;> simp
        · simp only [h2]
          simp
      · simp
  · simp only [h1]
    by_cases h2 : truthyOpt title = true
    · simp only [h2, if_true, if_false, Bool.false_eq_true]
      rcases hq2 : client.queryTitleCreatorYear (title.getD .jnull) with e | ms2
      · simp
      · rcases ms2 with _ | ⟨m2, ms2⟩ <;> simp
    · simp only [h2]
      simp

/-- A sync result built from a pre-existing entry carries `existed = true`
and a deep-link formed from its identifier. -/
theorem syncExisting_ok_shape (env : Str → Option Str) (ex : JValue)
    (r : ZoteroSyncResult) (h : syncExisting env ex = .ok r) :
    r.existed = true ∧ r.select_uri = str "zotero://select/items/" ++ r.key := by
  cases ex <;> simp only [syncExisting] at h <;> try exact absurd h (by simp)
  case jobj ek =>
    rcases hk : jGetDataKey ek with e | kv
    · simp only [hk] at h
      exact absurd h (by simp)
    · simp only [hk] at h
      by_cases ht : truthyOpt kv = false
      · simp only [ht, if_pos] at h
        exact absurd h (by simp)
      · simp only [ht, if_neg] at h
        cases h
        exact ⟨rfl, rfl⟩

/-- A sync result built from a create response carries `existed = false` and
a deep-link formed from its identifier. -/
theorem syncCreated_ok_shape (env : Str → Option Str) (response : JValue)
    (r : ZoteroSyncResult) (h : syncCreated env response = .ok r) :
    r.existed = false ∧ r.select_uri = str "zotero://select/items/" ++ r.key := by
  cases response <;> simp only [syncCreated, truthyOpt] at h <;> try exact absurd h (by simp)
  case jobj rk =>
    rcases hg : jGet rk (str "success") with _ | v
    · simp only [hg] at h
      exact absurd h (by simp)
    · simp only [hg] at h
      cases v <;> simp only [pyTruthy] at h
      case jobj kvs =>
        rcases kvs with _ | ⟨⟨k0, v0⟩, krest⟩
        · simp only [List.isEmpty_nil, Bool.not_true] at h
          exact absurd h (by simp)
        · simp only [List.isEmpty_cons, Bool.not_false] at h
          cases h
          exact ⟨rfl, rfl⟩
      all_goals (first
        | (split at h <;> exact absurd h (by simp))
        | exact absurd h (by simp))

/-- A completed `syncWithEntry` went through exactly one of the two paths:
a dedup hit finalized by `syncExisting` with no create call, or a creation
finalized by `syncCreated` with a create call in the log. -/
theorem syncWithEntry_ok_cases (env : Str → Option Str) (client : ZoteroClient)
    (skvs ekvs : List (Str × JValue)) (r : ZoteroSyncResult)
    (h : (syncWithEntry env client skvs ekvs).1 = .ok r) :
    (∃ ex, (choose_existing_item client (pyOrOpt (jGet ekvs (str "doi")) (jGet ekvs (str "DOI")))
        (jGet ekvs (str "title"))).1 = some ex ∧ syncExisting env ex = .ok r ∧
      (∀ zc ∈ (syncWithEntry env client skvs ekvs).2, zc ≠ ZCall.create)) ∨
    (∃ response, syncCreated env response = .ok r ∧
      ZCall.create ∈ (syncWithEntry env client skvs ekvs).2) := by
  rcases ht : client.item_template (pyOr (jGet ekvs (str "itemType"))
      (.jstr (str "journalArticle"))) with e | template
  · simp only [syncWithEntry, ht] at h
    exact absurd h (by simp)
  · rcases hi : pyIterList ((jGet ekvs (str "creators")).getD (.jarr [])) with e | craw
    · simp only [syncWithEntry, ht, hi] at h
      exact absurd h (by simp)
    · rcases hc : jContextSummary skvs with e | abs?
      · simp only [syncWithEntry, ht, hi, hc] at h
        exact absurd h (by simp)
      · rcases hf : (choose_existing_item client
            (pyOrOpt (jGet ekvs (str "doi")) (jGet ekvs (str "DOI")))
            (jGet ekvs (str "title"))).1 with _ | ex
        · rcases hcr : client.create_items [syncFullPayload template ekvs craw abs?] with e | response
          · simp only [syncWithEntry, ht, hi, hc, hf, hcr] at h
            exact absurd h (by simp)
          · simp only [syncWithEntry, ht, hi, hc, hf, hcr] at h ⊢
            refine Or.inr ⟨response, h, ?_⟩
            simp
        · simp only [syncWithEntry, ht, hi, hc, hf] at h ⊢
          refine Or.inl ⟨ex, rfl, h, ?_⟩
          intro zc hzc
          rcases List.mem_append.mp hzc with h1 | h2
          · rcases List.mem_singleton.mp h1 with rfl
            simp
          · exact choose_existing_item_no_create client _ _ zc h2

/-- C5 (confirmed): the sync is find-or-create.  When the dedup pass (DOI
query first, then title) returns a pre-existing entry, the sync returns
`existed = true` with that entry's identifier and performs no create call;
when it finds nothing, the sync performs exactly one create call and returns
`existed = false` with the identifier taken from the create response. -/
theorem sync_find_or_create
    (env : Str → Option Str) (client : ZoteroClient)
    (skvs ekvs mkvs : List (Str × JValue)) (restItems : List JValue)
    (template : List (Str × JValue)) (creatorsRaw : List JValue)
    (abs? : Option JValue) (kvOpt : Option JValue)
    (hitems : jGet skvs (str "items") = some (.jarr (.jobj ekvs :: restItems)))
    (hbuild : build_zotero_client env client = .ok client)
    (htempl : client.item_template (pyOr (jGet ekvs (str "itemType"))
      (.jstr (str "journalArticle"))) = .ok template)
    (hiter : pyIterList ((jGet ekvs (str "creators")).getD (.jarr [])) = .ok creatorsRaw)
    (hctx : jContextSummary skvs = .ok abs?) :
    ((choose_existing_item client (pyOrOpt (jGet ekvs (str "doi")) (jGet ekvs (str "DOI")))
        (jGet ekvs (str "title"))).1 = some (.jobj mkvs) →
      jGetDataKey mkvs = .ok kvOpt → truthyOpt kvOpt = true →
      (sync_structured_item env client (.jobj skvs)).1 =
        .ok ⟨pyToStr (kvOpt.getD .jnull),
             str "zotero://select/items/" ++ pyToStr (kvOpt.getD .jnull),
             build_web_url env (pyToStr (kvOpt.getD .jnull)), true⟩ ∧
      (∀ zc ∈ (sync_structured_item env client (.jobj skvs)).2, zc ≠ ZCall.create)) ∧
    ((choose_existing_item client (pyOrOpt (jGet ekvs (str "doi")) (jGet ekvs (str "DOI")))
        (jGet ekvs (str "title"))).1 = none →
      ∀ (k0 : Str) (v0 : JValue) (srest : List (Str × JValue)),
      (∀ p, client.create_items p = .ok (.jobj [(str "success", .jobj ((k0, v0) :: srest))])) →
      (sync_structured_item env client (.jobj skvs)).1 =
        .ok ⟨pyToStr v0, str "zotero://select/items/" ++ pyToStr v0,
             build_web_url env (pyToStr v0), false⟩ ∧
      ((sync_structured_item env client (.jobj skvs)).2.countP
        (fun zc => match zc with | ZCall.create => true | _ => false)) = 1) := by
  constructor
  · intro hfound hkey hkv
    have hsync : sync_structured_item env client (.jobj skvs) =
        (syncExisting env (.jobj mkvs),
         [.template (pyOr (jGet ekvs (str "itemType")) (.jstr (str "journalArticle")))] ++
           (choose_existing_item client (pyOrOpt (jGet ekvs (str "doi")) (jGet ekvs (str "DOI")))
             (jGet ekvs (str "title"))).2) := by
      simp only [sync_structured_item, hitems, hbuild, syncWithEntry, htempl, hiter, hctx, hfound]
    constructor
    · rw [hsync]
      simp only [syncExisting, hkey, hkv, Bool.true_eq_false, if_neg]
      simp
    · rw [hsync]
      intro zc hzc
      rcases List.mem_append.mp hzc with h1 | h2
      · rcases List.mem_singleton.mp h1 with rfl
        simp
      · exact choose_existing_item_no_create client _ _ zc h2
  · intro hnone k0 v0 srest hcr
    have hsync : sync_structured_item env client (.jobj skvs) =
        (syncCreated env (.jobj [(str "success", .jobj ((k0, v0) :: srest))]),
         [.template (pyOr (jGet ekvs (str "itemType")) (.jstr (str "journalArticle")))] ++
           (choose_existing_item client (pyOrOpt (jGet ekvs (str "doi")) (jGet ekvs (str "DOI")))
             (jGet ekvs (str "title"))).2 ++ [.create]) := by
      simp only [sync_structured_item, hitems, hbuild, syncWithEntry, htempl, hiter, hctx, hnone, hcr]
    constructor
    · rw [hsync]
      simp only [syncCreated, jGet, List.find?]
      simp [truthyOpt, pyTruthy]
    · rw [hsync]
      simp only [List.countP_append, List.countP_cons, List.countP_nil]
      have hzero : ((choose_existing_item client
          (pyOrOpt (jGet ekvs (str "doi")) (jGet ekvs (str "DOI")))
          (jGet ekvs (str "title"))).2.countP
            (fun zc => match zc with | ZCall.create => true | _ => false)) = 0 := by
        rw [List.countP_eq_zero]
        intro zc hzc
        have hne := choose_existing_item_no_create client _ _ zc hzc
        cases zc
        · simp
        · simp
        · simp
        · exact absurd rfl hne
      simp [hzero]

/-- C5 witness: the create path evaluated on a concrete record with no DOI
and no title match. -/
theorem sync_find_or_create_witness :
    (sync_structured_item envZ clientZCreate (.jobj skvsZ)).1 =
      .ok ⟨str "KEY1", str "zotero://select/items/KEY1",
           some (str "https://www.zotero.org/users/123/items/KEY1"), false⟩ ∧
    ((sync_structured_item envZ clientZCreate (.jobj skvsZ)).2.countP
      (fun zc => match zc with | ZCall.create => true | _ => false)) = 1 :=
  (sync_find_or_create envZ clientZCreate skvsZ ekvsZ [] [] [(str "title", .jnull)] [] none none
    rfl rfl rfl rfl rfl).2 rfl (str "0") (.jstr (str "KEY1")) [] (fun _ => rfl)

/-- C8 (confirmed): every outcome of the sync carries its identifier and a
deep-link formed from it; `existed = true` occurs only when the identifier
came from a pre-existing entry found by the dedup queries (the run performs
no create call), never with a freshly generated identifier; `existed = false`
outcomes come from an actual create call. -/
theorem sync_outcome_invariant
    (env : Str → Option Str) (client : ZoteroClient) (structured : JValue)
    (r : ZoteroSyncResult)
    (h : (sync_structured_item env client structured).1 = .ok r) :
    r.select_uri = str "zotero://select/items/" ++ r.key ∧
    (r.existed = true →
      (∀ zc ∈ (sync_structured_item env client structured).2, zc ≠ ZCall.create) ∧
      ∃ doi title ex, (choose_existing_item client doi title).1 = some ex ∧
        syncExisting env ex = .ok r) ∧
    (r.existed = false → ZCall.create ∈ (sync_structured_item env client structured).2) := by
  cases structured
  case jobj skvs =>
    simp only [sync_structured_item] at h ⊢
    rcases hit : jGet skvs (str "items") with _ | v
    · simp only [hit] at h ⊢
      exact Except.noConfusion h
    · simp only [hit] at h ⊢
      cases v
      case jarr xs =>
        rcases xs with _ | ⟨e0, rest⟩
        · exact Except.noConfusion h
        · cases e0
          case jobj ekvs =>
            rcases hb : build_zotero_client env client with e | c
            · simp only [hb] at h ⊢
              exact Except.noConfusion h
            · simp only [hb] at h ⊢
              rcases syncWithEntry_ok_cases env client skvs ekvs r h with
                ⟨ex, hfound, hex, hnc⟩ | ⟨resp, hcr, hmem⟩
              · have shape := syncExisting_ok_shape env ex r hex
                refine ⟨shape.2, fun _ => ⟨hnc, ?_⟩, fun hfalse => ?_⟩
                · exact ⟨_, _, ex, hfound, hex⟩
                · rw [shape.1] at hfalse
                  exact absurd hfalse (by simp)
              · have shape := syncCreated_ok_shape env resp r hcr
                refine ⟨shape.2, fun htrue => ?_, fun _ => hmem⟩
                rw [shape.1] at htrue
                exact absurd htrue (by simp)
          all_goals exact Except.noConfusion h
      all_goals exact Except.noConfusion h
  all_goals exact Except.noConfusion h

/-- C8 witness: the invariant evaluated on the concrete created outcome. -/
theorem sync_outcome_invariant_witness :
    rZ.select_uri = str "zotero://select/items/" ++ rZ.key ∧
    (rZ.existed = true →
      (∀ zc ∈ (sync_structured_item envZ clientZCreate (.jobj skvsZ)).2, zc ≠ ZCall.create) ∧
      ∃ doi title ex, (choose_existing_item clientZCreate doi title).1 = some ex ∧
        syncExisting envZ ex = .ok rZ) ∧
    (rZ.existed = false → ZCall.create ∈ (sync_structured_item envZ clientZCreate (.jobj skvsZ)).2) :=
  sync_outcome_invariant envZ clientZCreate (.jobj skvsZ) rZ rfl

/-- The error path of the evidence join: a record whose evidence carries a
truthy non-string source makes the formatter raise `TypeError`, as
`", ".join` does on the raw values. -/
theorem formatCommentEntry_nonstring_source :
    formatCommentEntry
      { article_index := 0, article := ⟨str "A", str "known", [], false, 0⟩,
        structured := .jobj [(str "context",
          .jobj [(str "evidence", .jarr [.jobj [(str "source", .jint 5)]])])],
        raw_output := .jstr [] }
      = .error (.typeError (str "sequence item: expected str instance")) := rfl

/-- Stages other than the terminal one perform no tracker mutation. -/
theorem stage_no_mutations (gh : GitHubClientO) (llm : Str → Option JValue)
    (oc : NodeOracles) (am : Str) (ai : Nat) (s : Stage) (st : ResearchState)
    (hs : s ≠ Stage.update_issue) :
    mutationsOf (runStage gh llm oc am ai s st).2 = [] ∧
    ((runStage gh llm oc am ai s st).2.countP
      (fun c => match c with | TrackerCall.comment _ => true | _ => false)) = 0 ∧
    ((runStage gh llm oc am ai s st).2.countP
      (fun c => match c with | TrackerCall.patch _ => true | _ => false)) = 0 := by
  cases s
  case fetch_issue =>
    rcases hg : gh.get_issue st.issue_number with e | issue <;>
      simp [runStage, fetch_issue_node, hg, mutationsOf]
  case update_issue => exact absurd rfl hs
  all_goals simp [runStage, mutationsOf]

theorem updateIssuePatch_counts (gh : GitHubClientO) (st : ResearchState)
    (log : List TrackerCall) :
    ((updateIssuePatch gh st log).2.countP
      (fun c => match c with | TrackerCall.comment _ => true | _ => false)) =
      (log.countP (fun c => match c with | TrackerCall.comment _ => true | _ => false)) ∧
    ((updateIssuePatch gh st log).2.countP
      (fun c => match c with | TrackerCall.patch _ => true | _ => false)) ≤
      (log.countP (fun c => match c with | TrackerCall.patch _ => true | _ => false)) + 1 := by
  unfold updateIssuePatch
  rcases hub : st.updated_issue_body with _ | ub <;> dsimp only
  · simp
  · by_cases hc : ub.isEmpty = false ∧ ub ≠ orStrOpt st.issue_body []
    · rw [if_pos hc]
      rcases hg : gh.update_issue_body st.issue_number ub with e | u <;>
        simp [List.countP_append, List.countP_cons]
    · rw [if_neg hc]
      simp

theorem update_issue_node_counts (gh : GitHubClientO) (st : ResearchState) :
    ((update_issue_node gh st).2.countP
      (fun c => match c with | TrackerCall.comment _ => true | _ => false)) ≤ 1 ∧
    ((update_issue_node gh st).2.countP
      (fun c => match c with | TrackerCall.patch _ => true | _ => false)) ≤ 1 := by
  unfold update_issue_node
  dsimp only
  set ct := List.intercalate (str "\n\n")
    (((match st.article_comment with
       | some c => if c.isEmpty then [] else [c]
       | none => []) ++
      (match st.topic_comment with
       | some c => if c.isEmpty then [] else [c]
       | none => [])).filter (fun s => s.isEmpty = false)) with hct
  by_cases he : ct.isEmpty
  · simp only [he, reduceIte]
    have h := updateIssuePatch_counts gh { st with comment_body := none } []
    exact ⟨by rw [h.1]; simp, le_trans h.2 (by simp)⟩
  · rw [if_neg he]
    rcases hg : gh.comment_on_issue st.issue_number ct with e | u
    · simp only [hg]
      constructor <;> simp [List.countP_cons]
    · simp only [hg]
      have h := updateIssuePatch_counts gh { st with comment_body := some ct }
        [TrackerCall.comment ct]
      constructor
      · rw [h.1]
        simp [List.countP_cons]
      · exact le_trans h.2 (by simp [List.countP_cons])

theorem runFrom_stop_update_no_mutations (gh : GitHubClientO)
    (llm : Str → Option JValue) (oc : NodeOracles) (am : Str) (ai : Nat) :
    ∀ (n : Nat) (s : Stage) (st : ResearchState),
      mutationsOf (runFrom gh llm oc am ai (some Stage.update_issue) n s st).2 = [] := by
  intro n
  induction n with
  | zero => intro s st; rfl
  | succ n ih =>
    intro s st
    rw [runFrom]
    by_cases hstop : (some Stage.update_issue : Option Stage) = some s
    · rw [if_pos hstop]
      rfl
    · rw [if_neg hstop]
      have hs : s ≠ Stage.update_issue := by
        intro h
        exact hstop (by rw [h])
      rcases hr : runStage gh llm oc am ai s st with ⟨r, log⟩
      have hlog : mutationsOf log = [] := by
        have h2 := (stage_no_mutations gh llm oc am ai s st hs).1
        rw [hr] at h2
        exact h2
      cases r with
      | error e => exact hlog
      | ok st' =>
        dsimp only
        cases hn : nextStage s st' with
        | none => exact hlog
        | some s2 =>
          have hlog2 := ih s2 st'
          simp only [mutationsOf, List.filter_append] at hlog hlog2 ⊢
          simp [hlog, hlog2]

theorem runFrom_counts (gh : GitHubClientO)
    (llm : Str → Option JValue) (oc : NodeOracles) (am : Str) (ai : Nat) :
    ∀ (n : Nat) (s : Stage) (st : ResearchState),
      ((runFrom gh llm oc am ai none n s st).2.countP
        (fun c => match c with | TrackerCall.comment _ => true | _ => false)) ≤ 1 ∧
      ((runFrom gh llm oc am ai none n s st).2.countP
        (fun c => match c with | TrackerCall.patch _ => true | _ => false)) ≤ 1 := by
  intro n
  induction n with
  | zero => intro s st; exact ⟨by simp [runFrom], by simp [runFrom]⟩
  | succ n ih =>
    intro s st
    rw [runFrom]
    simp only [reduceCtorEq, if_neg, reduceIte]
    rcases hr : runStage gh llm oc am ai s st with ⟨r, log⟩
    by_cases hs : s = Stage.update_issue
    · subst hs
      have hr2 : update_issue_node gh st = (r, log) := hr
      have hcnt := update_issue_node_counts gh st
      rw [hr2] at hcnt
      cases r with
      | error e => exact hcnt
      | ok st' => exact hcnt
    · have hzero := stage_no_mutations gh llm oc am ai s st hs
      rw [hr] at hzero
      cases r with
      | error e => exact ⟨by rw [hzero.2.1]; simp, by rw [hzero.2.2]; simp⟩
      | ok st' =>
        dsimp only
        cases hn : nextStage s st' with
        | none => exact ⟨by rw [hzero.2.1]; simp, by rw [hzero.2.2]; simp⟩
        | some s2 =>
          constructor
          · rw [List.countP_append, hzero.2.1]
            simpa using (ih s2 st').1
          · rw [List.countP_append, hzero.2.2]
            simpa using (ih s2 st').2

/-- C4 (confirmed): the two tracker-mutating operations (posting the comment
and patching the issue body) are invoked only in the terminal `update_issue`
stage, at most once each; every execution interrupted before that stage has
performed no tracker mutation, and a full run performs at most one comment
call and at most one patch call in total. -/
theorem tracker_mutations_only_in_update
    (gh : GitHubClientO) (llm : Str → Option JValue) (oc : NodeOracles)
    (am : Str) (ai : Nat) (st0 : ResearchState) :
    (∀ s st, s ≠ Stage.update_issue →
      mutationsOf (runStage gh llm oc am ai s st).2 = []) ∧
    (∀ st, ((update_issue_node gh st).2.countP
        (fun c => match c with | TrackerCall.comment _ => true | _ => false)) ≤ 1 ∧
      ((update_issue_node gh st).2.countP
        (fun c => match c with | TrackerCall.patch _ => true | _ => false)) ≤ 1) ∧
    mutationsOf (runBeforeUpdate gh llm oc am ai st0).2 = [] ∧
    ((run_research_graph gh llm oc am ai st0).2.countP
      (fun c => match c with | TrackerCall.comment _ => true | _ => false)) ≤ 1 ∧
    ((run_research_graph gh llm oc am ai st0).2.countP
      (fun c => match c with | TrackerCall.patch _ => true | _ => false)) ≤ 1 :=
  ⟨fun s st hs => (stage_no_mutations gh llm oc am ai s st hs).1,
   fun st => update_issue_node_counts gh st,
   runFrom_stop_update_no_mutations gh llm oc am ai 25 Stage.fetch_issue st0,
   (runFrom_counts gh llm oc am ai 25 Stage.fetch_issue st0).1,
   (runFrom_counts gh llm oc am ai 25 Stage.fetch_issue st0).2⟩

theorem not_mem_splitOn (x : Char) :
    ∀ (s : Str), ∀ l ∈ s.splitOn x, x ∉ l := by
  intro s
  induction s with
  | nil =>
    intro l hl
    rw [List.splitOn_nil] at hl
    simp only [List.mem_singleton] at hl
    subst hl; simp
  | cons a t ih =>
    intro l hl
    rw [List.splitOn, List.splitOnP_cons] at hl
    by_cases ha : a = x
    · rw [if_pos (by simp [ha])] at hl
      rcases List.mem_cons.mp hl with h | h
      · subst h; simp
      · exact ih l h
    · rw [if_neg (by simp [ha])] at hl
      rcases hsp : t.splitOnP (· == x) with _ | ⟨h0, hs⟩
      · exact absurd hsp (List.splitOnP_ne_nil _ t)
      · rw [hsp] at hl
        simp only [List.modifyHead_cons] at hl
        rcases List.mem_cons.mp hl with h | h
        · subst h
          intro hx
          rcases List.mem_cons.mp hx with h | h
          · exact ha h.symm
          · exact ih h0 (by rw [List.splitOn, hsp]; exact List.mem_cons_self _ _) h
        · exact ih l (by rw [List.splitOn, hsp]; exact List.mem_cons.mpr (Or.inr h))

theorem pySplitlines_no_newline (s : Str) : ∀ l ∈ pySplitlines s, '\n' ∉ l := by
  intro l hl
  rw [pySplitlines] at hl
  split at hl
  · exact absurd hl (List.not_mem_nil l)
  · simp only [] at hl
    split at hl
    · exact not_mem_splitOn '\n' s l ((List.dropLast_sublist _).mem hl)
    · exact not_mem_splitOn '\n' s l hl

theorem replaceFirst_no_newline {pat repl l : Str} (hr : '\n' ∉ repl)
    (hl : '\n' ∉ l) : '\n' ∉ replaceFirst pat repl l := by
  induction l with
  | nil => simp [replaceFirst]
  | cons c t ih =>
    rw [replaceFirst]
    split
    · intro hm
      rcases List.mem_append.mp hm with h | h
      · exact hr h
      · exact hl (List.mem_of_mem_drop h)
    · intro hm
      rcases List.mem_cons.mp hm with h | h
      · exact hl (h ▸ List.mem_cons_self _ _)
      · exact ih (fun hx => hl (List.mem_cons_of_mem _ hx)) h

theorem replaceFirst_ne_nil {pat repl l : Str} (hrep : repl ≠ []) (hl : l ≠ []) :
    replaceFirst pat repl l ≠ [] := by
  rcases l with _ | ⟨c, t⟩
  · exact absurd rfl hl
  · rw [replaceFirst]
    split
    · rcases repl with _ | ⟨r, rs⟩
      · exact absurd rfl hrep
      · simp
    · simp

theorem pySplitlines_joinLines (ls : List Str)
    (h1 : ∀ l ∈ ls, '\n' ∉ l) (h2 : ls.getLast? ≠ some []) :
    pySplitlines (joinLines ls) = ls := by
  rcases ls with _ | ⟨a, t⟩
  · rfl
  · have hsp : (joinLines (a :: t)).splitOn '\n' = a :: t := by
      rw [joinLines]
      exact List.splitOn_intercalate (a :: t) '\n' (fun l hl => h1 l hl) (by simp)
    have hne : joinLines (a :: t) ≠ [] := by
      intro h0
      rw [h0, List.splitOn_nil] at hsp
      have ha : a = [] := by injection hsp with hh ht; exact hh.symm
      have ht : t = [] := by injection hsp with hh ht; exact ht.symm
      subst ha; subst ht
      exact h2 (by simp)
    rw [pySplitlines, if_neg hne]
    simp only [hsp]
    rw [if_neg h2]

theorem matchArticleLine_some {l : Str} {c : Char} {rest : Str}
    (h : matchArticleLine l = some (c, rest)) :
    l = '-' :: ' ' :: '[' :: c :: ']' :: ' ' :: rest ∧
      (c = ' ' ∨ c = 'x' ∨ c = 'X') ∧ rest ≠ [] := by
  unfold matchArticleLine at h
  split at h
  · next c' rest' =>
    split at h
    · next hcond =>
      injection h with h1
      injection h1 with hc hr
      subst hc; subst hr
      exact ⟨rfl, hcond.1, hcond.2⟩
    · exact Option.noConfusion h
  · exact Option.noConfusion h

theorem matchArticleLine_build {c : Char} {rest : Str}
    (hc : c = ' ' ∨ c = 'x' ∨ c = 'X') (hr : rest ≠ []) :
    matchArticleLine ('-' :: ' ' :: '[' :: c :: ']' :: ' ' :: rest) = some (c, rest) := by
  simp only [matchArticleLine]
  rw [if_pos ⟨hc, hr⟩]

theorem matchHeading_some {l : Str} {g : Str} (h : matchHeading l = some g) :
    ∃ c r, l = '#' :: '#' :: c :: r := by
  unfold matchHeading at h
  split at h
  · next c r => exact ⟨c, r, rfl⟩
  · exact Option.noConfusion h

theorem matchHeading_cons_none {c : Char} (t : Str) (hc : c ≠ '#') :
    matchHeading (c :: t) = none := by
  cases hm : matchHeading (c :: t) with
  | none => rfl
  | some g =>
    rcases matchHeading_some hm with ⟨c2, r2, heq⟩
    injection heq with h1 _
    exact absurd h1 hc

theorem rdropWhile_append_all {p : Char → Bool} {t w : Str} (hw : ∀ c ∈ w, p c) :
    List.rdropWhile p (t ++ w) = List.rdropWhile p t := by
  rw [List.rdropWhile, List.rdropWhile, List.reverse_append,
    List.dropWhile_append_of_pos (fun a ha => hw a (List.mem_reverse.mp ha))]

theorem rdropWhile_append_rtakeWhile (p : Char → Bool) (l : Str) :
    List.rdropWhile p l ++ List.rtakeWhile p l = l := by
  rw [List.rdropWhile, List.rtakeWhile, ← List.reverse_append,
    List.takeWhile_append_dropWhile, List.reverse_reverse]

theorem rdropWhile_getLast?_false {p : Char → Bool} {l : Str} {x : Char}
    (h : (List.rdropWhile p l).getLast? = some x) : p x = false := by
  have hne : List.rdropWhile p l ≠ [] := by
    intro h0; rw [h0] at h; exact Option.noConfusion h
  have h2 := List.rdropWhile_last_not (p := p) (l := l) hne
  rw [List.getLast?_eq_getLast _ hne] at h
  injection h with h3
  rw [h3] at h2
  exact Bool.not_eq_true _ ▸ (by simpa using h2)

theorem rdropWhile_eq_self_of_getLast? {p : Char → Bool} {l : Str} {x : Char}
    (h : l.getLast? = some x) (hx : p x = false) : List.rdropWhile p l = l := by
  have hne : l ≠ [] := by
    intro h0; rw [h0] at h; exact Option.noConfusion h
  rw [List.rdropWhile_eq_self_iff]
  intro _
  rw [List.getLast?_eq_getLast _ hne] at h
  injection h with h3
  rw [h3, hx]
  exact Bool.false_ne_true

theorem head_of_rdropWhile {p : Char → Bool} {x : Char} {xs : Str}
    (h : List.rdropWhile p (x :: xs) ≠ []) :
    ∃ ys, List.rdropWhile p (x :: xs) = x :: ys := by
  rcases hpre : List.rdropWhile p (x :: xs) with _ | ⟨y, ys⟩
  · exact absurd hpre h
  · have hp := List.rdropWhile_prefix (p := p) (l := x :: xs)
    rw [hpre] at hp
    rcases List.cons_prefix_cons.mp hp with ⟨hyx, _⟩
    exact ⟨ys, by rw [hyx]⟩

theorem strip_sandwich {w1 core w2 : Str} {d : Char} {ds : Str} {z : Char}
    (h1 : ∀ c ∈ w1, isPySpace c) (h2 : ∀ c ∈ w2, isPySpace c)
    (hcore : core = d :: ds) (hd : isPySpace d = false)
    (hz : core.getLast? = some z) (hzf : isPySpace z = false) :
    pyStrip (w1 ++ core ++ w2) = core := by
  rw [pyStrip, List.append_assoc,
    List.dropWhile_append_of_pos (fun a ha => h1 a ha)]
  rw [hcore, List.cons_append, List.dropWhile_cons,
    if_neg (by rw [hd]; exact Bool.false_ne_true)]
  rw [← List.cons_append, rdropWhile_append_all (fun a ha => h2 a ha), ← hcore]
  exact rdropWhile_eq_self_of_getLast? hz hzf

theorem pyStrip_pyRstrip (l : Str) : pyStrip (pyRstrip l) = pyStrip l := by
  rcases hm : List.rdropWhile isPySpace l with _ | ⟨d, m⟩
  · rw [pyRstrip, hm]
    rw [List.rdropWhile_eq_nil_iff] at hm
    have hdw : l.dropWhile isPySpace = [] := List.dropWhile_eq_nil_iff.mpr (fun x hx => hm x hx)
    simp [pyStrip, hdw]
  · have hne : (d :: m) ≠ ([] : Str) := by simp
    have hz : (d :: m).getLast? = some ((d :: m).getLast hne) :=
      List.getLast?_eq_getLast _ hne
    set z := (d :: m).getLast hne with hzdef
    have hzf : isPySpace z = false := rdropWhile_getLast?_false (p := isPySpace) (l := l)
      (by rw [hm]; exact hz)
    have hw : ∀ c ∈ List.rtakeWhile isPySpace l, isPySpace c = true :=
      fun c hc => List.mem_rtakeWhile_imp hc
    have hdec : l = (d :: m) ++ List.rtakeWhile isPySpace l := by
      conv_lhs => rw [← rdropWhile_append_rtakeWhile isPySpace l]
      rw [hm]
    have hdm : List.dropWhile isPySpace (d :: m) ≠ [] := by
      intro h0
      rw [List.dropWhile_eq_nil_iff] at h0
      have hmem : z ∈ d :: m := List.getLast_mem hne
      rw [h0 z hmem] at hzf
      exact Bool.true_eq_false ▸ hzf
    rw [pyRstrip, hm, pyStrip, pyStrip]
    conv_rhs => rw [hdec]
    rw [List.dropWhile_append]
    rw [if_neg (by rw [List.isEmpty_iff]; exact hdm)]
    rw [rdropWhile_append_all hw]

theorem strip_decomp (l : Str) :
    ∃ w1 w2, l = w1 ++ pyStrip l ++ w2 ∧ (∀ c ∈ w1, isPySpace c = true) ∧
      (∀ c ∈ w2, isPySpace c = true) := by
  refine ⟨l.takeWhile isPySpace, List.rtakeWhile isPySpace (l.dropWhile isPySpace),
    ?_, fun c hc => List.mem_takeWhile_imp hc, fun c hc => List.mem_rtakeWhile_imp hc⟩
  rw [pyStrip, List.append_assoc,
    rdropWhile_append_rtakeWhile isPySpace (l.dropWhile isPySpace),
    List.takeWhile_append_dropWhile]

theorem article_not_heading {X : Str} {v : Char × Str}
    (h : matchArticleLine (pyStrip X) = some v) : matchHeading X = none := by
  cases hm : matchHeading X with
  | none => rfl
  | some g =>
    rcases matchHeading_some hm with ⟨c, r, rfl⟩
    have hdw : List.dropWhile isPySpace ('#' :: '#' :: c :: r) = '#' :: '#' :: c :: r := by
      rw [List.dropWhile_cons, if_neg (by decide)]
    have hne : List.rdropWhile isPySpace ('#' :: '#' :: c :: r) ≠ [] := by
      intro h0
      rw [List.rdropWhile_eq_nil_iff] at h0
      exact absurd (h0 '#' (by simp)) (by decide)
    obtain ⟨ys, hys⟩ := head_of_rdropWhile hne
    rw [pyStrip, hdw, hys] at h
    rcases matchArticleLine_some h with ⟨heq, _, _⟩
    injection heq with h1 _
    exact absurd h1 (by decide)

theorem replaceFirst_append {ps repl t : Str} (w : Str) (hw : ∀ c ∈ w, c ≠ '[') :
    replaceFirst ('[' :: ps) repl (w ++ t) = w ++ replaceFirst ('[' :: ps) repl t := by
  induction w with
  | nil => rfl
  | cons c w ih =>
    rw [List.cons_append, replaceFirst]
    rw [if_neg ?hcond]
    · rw [ih (fun d hd => hw d (List.mem_cons_of_mem _ hd)), List.cons_append]
    case hcond =>
      have hc : c ≠ '[' := hw c (List.mem_cons_self _ _)
      simp only [strStartsWith, Bool.and_eq_true, decide_eq_true_eq]
      intro hand
      exact hc hand.1.symm

theorem isPySpace_ne_hash {c : Char} (hc : isPySpace c = true) : c ≠ '#' := by
  intro he; subst he; exact absurd hc (by decide)

theorem flip_line {l rest : Str}
    (h : matchArticleLine (pyStrip (pyRstrip l)) = some (' ', rest)) :
    matchArticleLine (pyStrip (pyRstrip (replaceFirst (str "[ ]") (str "[x]") l)))
        = some ('x', rest) ∧
    matchHeading (pyRstrip (replaceFirst (str "[ ]") (str "[x]") l)) = none := by
  rw [pyStrip_pyRstrip] at h
  rcases matchArticleLine_some h with ⟨hcore, _, hrne⟩
  obtain ⟨w1, w2, hdec, hw1, hw2⟩ := strip_decomp l
  rw [hcore] at hdec
  have hglr : (pyStrip l).getLast? = rest.getLast? := by
    rw [hcore]
    show ((['-', ' ', '[', ' ', ']', ' '] : Str) ++ rest).getLast? = rest.getLast?
    rw [List.getLast?_append]
    rcases hrl : rest.getLast? with _ | z
    · rw [List.getLast?_eq_none_iff] at hrl; exact absurd hrl hrne
    · rfl
  obtain ⟨z, hzl, hzf⟩ : ∃ z, rest.getLast? = some z ∧ isPySpace z = false := by
    rcases hrl : rest.getLast? with _ | z
    · rw [List.getLast?_eq_none_iff] at hrl; exact absurd hrl hrne
    · refine ⟨z, rfl, ?_⟩
      exact rdropWhile_getLast?_false (p := isPySpace) (l := l.dropWhile isPySpace)
        (by rw [← pyStrip, hglr, hrl])
  have hrw : replaceFirst (str "[ ]") (str "[x]") l
      = w1 ++ ('-' :: ' ' :: '[' :: 'x' :: ']' :: ' ' :: rest) ++ w2 := by
    conv_lhs => rw [hdec]
    have hassoc : w1 ++ ('-' :: ' ' :: '[' :: ' ' :: ']' :: ' ' :: rest) ++ w2
        = (w1 ++ ['-', ' ']) ++ ('[' :: ' ' :: ']' :: ' ' :: (rest ++ w2)) := by
      simp
    rw [hassoc]
    have hpat : str "[ ]" = '[' :: [' ', ']'] := rfl
    rw [hpat, replaceFirst_append (w1 ++ ['-', ' ']) ?hwno]
    case hwno =>
      intro d hd he
      subst he
      rcases List.mem_append.mp hd with h1 | h1
      · exact absurd (hw1 _ h1) (by decide)
      · exact absurd h1 (by decide)
    rw [replaceFirst]
    rw [if_pos (by simp [strStartsWith])]
    simp [str]
  constructor
  · rw [pyStrip_pyRstrip, hrw]
    rw [strip_sandwich hw1 hw2 rfl (by decide)
      (z := z) ?hgl (by rw [hzf])]
    · exact matchArticleLine_build (Or.inr (Or.inl rfl)) hrne
    case hgl =>
      show ((['-', ' ', '[', 'x', ']', ' '] : Str) ++ rest).getLast? = some z
      rw [List.getLast?_append, hzl]
      rfl
  · rw [hrw, pyRstrip]
    rw [rdropWhile_append_all hw2]
    have hcgl : (w1 ++ ('-' :: ' ' :: '[' :: 'x' :: ']' :: ' ' :: rest)).getLast? = some z := by
      rw [List.getLast?_append]
      have : (('-' :: ' ' :: '[' :: 'x' :: ']' :: ' ' :: rest) : Str).getLast? = some z := by
        show ((['-', ' ', '[', 'x', ']', ' '] : Str) ++ rest).getLast? = some z
        rw [List.getLast?_append, hzl]
        rfl
      rw [this]
      rfl
    rw [rdropWhile_eq_self_of_getLast? hcgl hzf]
    rcases w1 with _ | ⟨c, cw⟩
    · exact matchHeading_cons_none _ (by decide)
    · rw [List.cons_append]
      exact matchHeading_cons_none _ (isPySpace_ne_hash (hw1 c (List.mem_cons_self _ _)))


section ParserInvThms

variable {α : Type} (chk : α → Bool) (lidx : α → Nat)
variable (mk : Str → Bool → Nat → α) (setD : α → List Str → α) (secKey : Str)

theorem StOk_mono {lines : List Str} {i j : Nat} {st : ParseSt α}
    (h : StOk chk lidx lines i st) (hij : i ≤ j) : StOk chk lidx lines j st := by
  obtain ⟨h1, h2, h3⟩ := h
  exact ⟨fun a ha => ⟨(h1 a ha).1, lt_of_lt_of_le (h1 a ha).2 hij⟩, h2,
    fun a ha => ⟨(h3 a ha).1, lt_of_lt_of_le (h3 a ha).2.1 hij, (h3 a ha).2.2⟩⟩

theorem ItemOk_setD {lines : List Str} {a : α} (ds : List Str)
    (hchk : ∀ a ds, chk (setD a ds) = chk a)
    (hlidx : ∀ a ds, lidx (setD a ds) = lidx a)
    (h : ItemOk chk lidx lines a) : ItemOk chk lidx lines (setD a ds) := by
  obtain ⟨hb, c, rest, hm, hc⟩ := h
  exact ⟨by rw [hlidx]; exact hb, c, rest, by rw [hlidx]; exact hm,
    by rw [hchk]; exact hc⟩

theorem finalize_ok {lines : List Str} {i : Nat} {st : ParseSt α}
    (hchk : ∀ a ds, chk (setD a ds) = chk a)
    (hlidx : ∀ a ds, lidx (setD a ds) = lidx a)
    (hst : StOk chk lidx lines i st) {a : α} (ha : st.cur = some a) (ds : List Str) :
    (∀ b ∈ st.acc ++ [setD a ds], ItemOk chk lidx lines b ∧ lidx b < i) ∧
    (st.acc ++ [setD a ds]).Pairwise (fun a b => lidx a < lidx b) := by
  obtain ⟨h1, h2, h3⟩ := hst
  obtain ⟨hio, hbd, hgt⟩ := h3 a ha
  constructor
  · intro b hb
    rcases List.mem_append.mp hb with hb | hb
    · exact h1 b hb
    · rw [List.mem_singleton] at hb
      subst hb
      exact ⟨ItemOk_setD chk lidx setD ds hchk hlidx hio, by rw [hlidx]; exact hbd⟩
  · refine List.pairwise_append.mpr ⟨h2, List.pairwise_singleton _ _, ?_⟩
    intro x hx y hy
    rw [List.mem_singleton] at hy
    subst hy
    rw [hlidx]
    exact hgt x hx


end ParserInvThms

section ParserInv2

variable {α : Type} (chk : α → Bool) (lidx : α → Nat)
variable (mk : Str → Bool → Nat → α) (setD : α → List Str → α) (secKey : Str)

theorem parseStep_ok
    (hmc : ∀ r b i, chk (mk r b i) = b)
    (hml : ∀ r b i, lidx (mk r b i) = i)
    (hsc : ∀ a ds, chk (setD a ds) = chk a)
    (hsl : ∀ a ds, lidx (setD a ds) = lidx a)
    {lines : List Str} {i : Nat} {raw : Str} {st : ParseSt α}
    (hraw : lines.getD i [] = raw) (hi : i < lines.length)
    (hst : StOk chk lidx lines i st) :
    StOk chk lidx lines (i + 1) (parseStep mk setD secKey i raw st) := by
  obtain ⟨h1, h2, h3⟩ := hst
  simp only [parseStep]
  cases hh : matchHeading (pyRstrip raw) with
  | some hd =>
    dsimp only
    cases hc : st.cur with
    | some a =>
      simp only [hc]
      have hf := finalize_ok chk lidx setD hsc hsl ⟨h1, h2, h3⟩ hc st.curDetails
      refine ⟨fun b hb => ⟨(hf.1 b hb).1, Nat.lt_succ_of_lt (hf.1 b hb).2⟩, hf.2, ?_⟩
      intro b hb
      exact Option.noConfusion hb
    | none =>
      simp only [hc]
      refine ⟨fun b hb => ⟨(h1 b hb).1, Nat.lt_succ_of_lt (h1 b hb).2⟩, h2, ?_⟩
      intro b hb
      exact Option.noConfusion hb
  | none =>
    by_cases hsec : st.inSec = false
    · rw [if_pos hsec]
      exact StOk_mono chk lidx ⟨h1, h2, h3⟩ (Nat.le_succ i)
    · rw [if_neg hsec]
      cases hm : matchArticleLine (pyStrip (pyRstrip raw)) with
      | some p =>
        rcases p with ⟨c, remainder⟩
        dsimp only
        cases hc : st.cur with
        | some a =>
          simp only [hc]
          have hf := finalize_ok chk lidx setD hsc hsl ⟨h1, h2, h3⟩ hc st.curDetails
          refine ⟨fun b hb => ⟨(hf.1 b hb).1, Nat.lt_succ_of_lt (hf.1 b hb).2⟩, hf.2, ?_⟩
          intro b hb
          injection hb with hb
          subst hb
          refine ⟨⟨by rw [hml]; exact hi, c, remainder, by rw [hml, hraw]; exact hm,
            by rw [hmc]⟩, by rw [hml]; exact Nat.lt_succ_self i, ?_⟩
          intro b hb
          rw [hml]
          exact (hf.1 b hb).2
        | none =>
          simp only [hc]
          refine ⟨fun b hb => ⟨(h1 b hb).1, Nat.lt_succ_of_lt (h1 b hb).2⟩, h2, ?_⟩
          intro b hb
          injection hb with hb
          subst hb
          refine ⟨⟨by rw [hml]; exact hi, c, remainder, by rw [hml, hraw]; exact hm,
            by rw [hmc]⟩, by rw [hml]; exact Nat.lt_succ_self i, ?_⟩
          intro b hb
          rw [hml]
          exact (h1 b hb).2
      | none =>
        dsimp only
        split
        · refine ⟨fun b hb => ⟨(h1 b hb).1, Nat.lt_succ_of_lt (h1 b hb).2⟩, h2, ?_⟩
          intro b hb
          obtain ⟨hio, hbd, hgt⟩ := h3 b hb
          exact ⟨hio, Nat.lt_succ_of_lt hbd, hgt⟩
        · exact StOk_mono chk lidx ⟨h1, h2, h3⟩ (Nat.le_succ i)

end ParserInv2

section ParserInv3

variable {α : Type} (chk : α → Bool) (lidx : α → Nat)
variable (mk : Str → Bool → Nat → α) (setD : α → List Str → α) (secKey : Str)

theorem parseLoop_ok
    (hmc : ∀ r b i, chk (mk r b i) = b)
    (hml : ∀ r b i, lidx (mk r b i) = i)
    (hsc : ∀ a ds, chk (setD a ds) = chk a)
    (hsl : ∀ a ds, lidx (setD a ds) = lidx a)
    {lines : List Str} :
    ∀ (ls : List Str) (i : Nat) (st : ParseSt α),
      lines.drop i = ls → StOk chk lidx lines i st →
      ∃ j, StOk chk lidx lines j (parseLoop mk setD secKey i st ls) := by
  intro ls
  induction ls with
  | nil =>
    intro i st _ hst
    exact ⟨i, hst⟩
  | cons l t ih =>
    intro i st hdrop hst
    have hget : lines[i]? = some l := by
      have h0 : (lines.drop i)[0]? = some l := by rw [hdrop]; simp
      rwa [List.getElem?_drop, Nat.add_zero] at h0
    have hi : i < lines.length := by
      rcases List.getElem?_eq_some_iff.mp hget with ⟨h, _⟩
      exact h
    have hraw : lines.getD i [] = l := by
      rw [List.getD_eq_getElem?_getD, hget]
      rfl
    have hdrop2 : lines.drop (i + 1) = t := by
      have := List.drop_drop 1 i lines
      rw [hdrop] at this
      simpa using this.symm
    rw [parseLoop]
    exact ih (i + 1) (parseStep mk setD secKey i l st) hdrop2
      (parseStep_ok chk lidx mk setD secKey hmc hml hsc hsl hraw hi hst)

theorem parseChecklist_ok
    (hmc : ∀ r b i, chk (mk r b i) = b)
    (hml : ∀ r b i, lidx (mk r b i) = i)
    (hsc : ∀ a ds, chk (setD a ds) = chk a)
    (hsl : ∀ a ds, lidx (setD a ds) = lidx a)
    (body : Str) :
    (∀ a ∈ parseChecklist mk setD secKey body,
        ItemOk chk lidx (pySplitlines body) a) ∧
    (parseChecklist mk setD secKey body).Pairwise (fun a b => lidx a < lidx b) := by
  obtain ⟨j, hj⟩ := parseLoop_ok chk lidx mk setD secKey hmc hml hsc hsl (pySplitlines body) 0
    ⟨false, none, [], []⟩ (by rw [List.drop_zero])
    ⟨fun a ha => absurd ha (List.not_mem_nil a), List.Pairwise.nil,
      fun a ha => Option.noConfusion ha⟩
  obtain ⟨h1, h2, h3⟩ := hj
  rw [parseChecklist, parseFinish]
  cases hc : (parseLoop mk setD secKey 0 ⟨false, none, [], []⟩ (pySplitlines body)).cur with
  | some a =>
    have hf := finalize_ok chk lidx setD hsc hsl ⟨h1, h2, h3⟩ hc
      (parseLoop mk setD secKey 0 ⟨false, none, [], []⟩ (pySplitlines body)).curDetails
    exact ⟨fun b hb => (hf.1 b hb).1, hf.2⟩
  | none =>
    exact ⟨fun b hb => (h1 b hb).1, h2⟩

end ParserInv3

section MarkSpec

variable {α : Type} (chk : α → Bool) (lidx : α → Nat)

theorem markLoop_spec (S : List Int) (lines : List Str) :
    ∀ (its : List α) (k : Nat) (acc : List Str),
      acc.length = lines.length →
      its.Pairwise (fun a b => lidx a < lidx b) →
      (∀ a ∈ its, lidx a < lines.length) →
      (∀ a ∈ its, acc[lidx a]? = lines[lidx a]?) →
      ((its.enumFrom k).foldl
          (fun ls pa =>
            if ((pa.1 : Int) ∈ S) ∧ chk pa.2 = false then
              ls.set (lidx pa.2)
                (replaceFirst (str "[ ]") (str "[x]") (ls.getD (lidx pa.2) []))
            else ls) acc).length = lines.length ∧
      (∀ p a, its[p]? = some a → (((k + p : Nat) : Int) ∈ S ∧ chk a = false) →
        ((its.enumFrom k).foldl
          (fun ls pa =>
            if ((pa.1 : Int) ∈ S) ∧ chk pa.2 = false then
              ls.set (lidx pa.2)
                (replaceFirst (str "[ ]") (str "[x]") (ls.getD (lidx pa.2) []))
            else ls) acc)[lidx a]?
          = some (replaceFirst (str "[ ]") (str "[x]") (lines.getD (lidx a) []))) ∧
      (∀ j : Nat, (∀ p a, its[p]? = some a → lidx a = j →
            ¬(((k + p : Nat) : Int) ∈ S ∧ chk a = false)) →
        ((its.enumFrom k).foldl
          (fun ls pa =>
            if ((pa.1 : Int) ∈ S) ∧ chk pa.2 = false then
              ls.set (lidx pa.2)
                (replaceFirst (str "[ ]") (str "[x]") (ls.getD (lidx pa.2) []))
            else ls) acc)[j]? = acc[j]?) := by
  intro its
  induction its with
  | nil =>
    intro k acc hlen _ _ _
    exact ⟨hlen, fun p a hp => Option.noConfusion hp, fun j _ => rfl⟩
  | cons a t ih =>
    intro k acc hlen hpw hbd hun
    rw [List.enumFrom_cons, List.foldl_cons]
    rw [List.pairwise_cons] at hpw
    have hbda : lidx a < lines.length := hbd a (List.mem_cons_self _ _)
    have huna : acc[lidx a]? = lines[lidx a]? := hun a (List.mem_cons_self _ _)
    by_cases hq : ((k : Int) ∈ S) ∧ chk a = false
    · rw [if_pos hq]
      have hgetd : acc.getD (lidx a) [] = lines.getD (lidx a) [] := by
        rw [List.getD_eq_getElem?_getD, List.getD_eq_getElem?_getD, huna]
      set acc1 := acc.set (lidx a)
        (replaceFirst (str "[ ]") (str "[x]") (acc.getD (lidx a) [])) with hacc1
      have hlen1 : acc1.length = lines.length := by
        rw [hacc1, List.length_set]; exact hlen
      have hne : ∀ b ∈ t, lidx a ≠ lidx b := fun b hb => Nat.ne_of_lt (hpw.1 b hb)
      have hun1 : ∀ b ∈ t, acc1[lidx b]? = lines[lidx b]? := by
        intro b hb
        rw [hacc1, List.getElem?_set_ne (hne b hb)]
        exact hun b (List.mem_cons_of_mem _ hb)
      obtain ⟨ih1, ih2, ih3⟩ := ih (k + 1) acc1 hlen1 hpw.2
        (fun b hb => hbd b (List.mem_cons_of_mem _ hb)) hun1
      refine ⟨ih1, ?_, ?_⟩
      · intro p b hp hqq
        rcases p with _ | p
        · simp only [List.getElem?_cons_zero] at hp
          injection hp with hp
          subst hp
          have h3 := ih3 (lidx a) ?_
          · rw [h3, hacc1, List.getElem?_set_self (by rw [hlen]; exact hbda), hgetd]
          · intro p' c hp' hlc
            have hc : c ∈ t := List.getElem?_mem hp'
            exact fun _ => absurd hlc.symm (hne c hc)
        · simp only [List.getElem?_cons_succ] at hp
          have harith : k + (p + 1) = (k + 1) + p := by omega
          rw [harith] at hqq
          exact ih2 p b hp hqq
      · intro j hj
        have h3 := ih3 j ?_
        · rw [h3, hacc1, List.getElem?_set_ne]
          have := hj 0 a (by simp) 
          intro he
          exact (this (by rw [he])) (by rw [Nat.add_zero]; exact hq)
        · intro p' c hp' hlc
          have harith : k + (p' + 1) = (k + 1) + p' := by omega
          have := hj (p' + 1) c (by rw [List.getElem?_cons_succ]; exact hp') hlc
          rw [harith] at this
          exact this
    · rw [if_neg hq]
      obtain ⟨ih1, ih2, ih3⟩ := ih (k + 1) acc hlen hpw.2
        (fun b hb => hbd b (List.mem_cons_of_mem _ hb))
        (fun b hb => hun b (List.mem_cons_of_mem _ hb))
      refine ⟨ih1, ?_, ?_⟩
      · intro p b hp hqq
        rcases p with _ | p
        · simp only [List.getElem?_cons_zero] at hp
          injection hp with hp
          subst hp
          rw [Nat.add_zero] at hqq
          exact absurd hqq hq
        · simp only [List.getElem?_cons_succ] at hp
          have harith : k + (p + 1) = (k + 1) + p := by omega
          rw [harith] at hqq
          exact ih2 p b hp hqq
      · intro j hj
        refine ih3 j ?_
        intro p' c hp' hlc
        have harith : k + (p' + 1) = (k + 1) + p' := by omega
        have := hj (p' + 1) c (by rw [List.getElem?_cons_succ]; exact hp') hlc
        rw [harith] at this
        exact this

end MarkSpec

section MarkSpec2

variable {α : Type} (chk : α → Bool) (lidx : α → Nat)

theorem markLines_spec (S : List Int) (lines : List Str) (items : List α)
    (hpw : items.Pairwise (fun a b => lidx a < lidx b))
    (hbd : ∀ a ∈ items, lidx a < lines.length) :
    (markLines chk lidx items S lines).length = lines.length ∧
    (∀ (p : Nat) (a : α), items[p]? = some a → ((p : Int) ∈ S ∧ chk a = false) →
      (markLines chk lidx items S lines)[lidx a]?
        = some (replaceFirst (str "[ ]") (str "[x]") (lines.getD (lidx a) []))) ∧
    (∀ j : Nat, (∀ (p : Nat) (a : α), items[p]? = some a → lidx a = j →
          ¬((p : Int) ∈ S ∧ chk a = false)) →
      (markLines chk lidx items S lines)[j]? = lines[j]?) := by
  obtain ⟨h1, h2, h3⟩ := markLoop_spec chk lidx S lines items 0 lines
    rfl hpw hbd (fun a _ => rfl)
  rw [markLines, List.enum]
  refine ⟨h1, ?_, ?_⟩
  · intro p a hp hq
    exact h2 p a hp (by rw [Nat.zero_add]; exact hq)
  · intro j hj
    exact h3 j (fun p c hp hlc => by rw [Nat.zero_add]; exact hj p c hp hlc)

theorem markLines_noop (S : List Int) (lines : List Str) (items : List α)
    (h : ∀ (p : Nat) (a : α), items[p]? = some a → ¬((p : Int) ∈ S ∧ chk a = false)) :
    markLines chk lidx items S lines = lines := by
  rw [markLines, List.enum]
  suffices hgen : ∀ (its : List α) (k : Nat) (acc : List Str),
      (∀ (p : Nat) (a : α), its[p]? = some a → ¬(((k + p : Nat) : Int) ∈ S ∧ chk a = false)) →
      (its.enumFrom k).foldl
        (fun ls pa =>
          if ((pa.1 : Int) ∈ S) ∧ chk pa.2 = false then
            ls.set (lidx pa.2)
              (replaceFirst (str "[ ]") (str "[x]") (ls.getD (lidx pa.2) []))
          else ls) acc = acc by
    exact hgen items 0 lines (fun p a hp => by rw [Nat.zero_add]; exact h p a hp)
  intro its
  induction its with
  | nil => intro k acc _; rfl
  | cons a t ih =>
    intro k acc hk
    rw [List.enumFrom_cons, List.foldl_cons]
    rw [if_neg (by
      have := hk 0 a (by simp)
      rw [Nat.add_zero] at this
      exact this)]
    refine ih (k + 1) acc ?_
    intro p c hp
    have := hk (p + 1) c (by rw [List.getElem?_cons_succ]; exact hp)
    rw [show k + (p + 1) = (k + 1) + p by omega] at this
    exact this

end MarkSpec2

section Gen3

variable {α : Type} (chk : α → Bool) (lidx : α → Nat)
variable (mk : Str → Bool → Nat → α) (setD : α → List Str → α) (secKey : Str)

theorem unchecked_evidence
    (hmc : ∀ r b i, chk (mk r b i) = b)
    (hml : ∀ r b i, lidx (mk r b i) = i)
    (hsc : ∀ a ds, chk (setD a ds) = chk a)
    (hsl : ∀ a ds, lidx (setD a ds) = lidx a)
    (body : Str) :
    ∀ (a : α), a ∈ parseChecklist mk setD secKey body → chk a = false →
      ∃ rest, matchArticleLine
          (pyStrip (pyRstrip ((pySplitlines body).getD (lidx a) []))) = some (' ', rest) := by
  intro a ha hcf
  obtain ⟨hb, c, rest, hm, hc⟩ := (parseChecklist_ok chk lidx mk setD secKey hmc hml hsc hsl body).1 a ha
  rcases (matchArticleLine_some hm).2.1 with hc' | hc' | hc'
  · subst hc'; exact ⟨rest, hm⟩
  · subst hc'; rw [hcf] at hc; exact absurd hc.symm (by decide)
  · subst hc'; rw [hcf] at hc; exact absurd hc.symm (by decide)

theorem mark_lines_gen
    (hmc : ∀ r b i, chk (mk r b i) = b)
    (hml : ∀ r b i, lidx (mk r b i) = i)
    (hsc : ∀ a ds, chk (setD a ds) = chk a)
    (hsl : ∀ a ds, lidx (setD a ds) = lidx a)
    (body : Str) (S : List Int)
    (h : (pySplitlines body).getLast? ≠ some ([] : Str)) :
    pySplitlines (joinLines (markLines chk lidx (parseChecklist mk setD secKey body) S
        (pySplitlines body)))
      = markLines chk lidx (parseChecklist mk setD secKey body) S (pySplitlines body) ∧
    (markLines chk lidx (parseChecklist mk setD secKey body) S
        (pySplitlines body)).length = (pySplitlines body).length ∧
    (∀ (p : Nat) (a : α), (parseChecklist mk setD secKey body)[p]? = some a →
      ((p : Int) ∈ S ∧ chk a = false) →
      (∃ rest, matchArticleLine
          (pyStrip (pyRstrip ((pySplitlines body).getD (lidx a) []))) = some (' ', rest)) ∧
      (markLines chk lidx (parseChecklist mk setD secKey body) S
          (pySplitlines body))[lidx a]?
        = some (replaceFirst (str "[ ]") (str "[x]")
            ((pySplitlines body).getD (lidx a) []))) ∧
    (∀ j : Nat, (∀ (p : Nat) (a : α),
          (parseChecklist mk setD secKey body)[p]? = some a → lidx a = j →
          ¬((p : Int) ∈ S ∧ chk a = false)) →
      (markLines chk lidx (parseChecklist mk setD secKey body) S
          (pySplitlines body))[j]? = (pySplitlines body)[j]?) := by
  obtain ⟨hok, hpw⟩ := parseChecklist_ok chk lidx mk setD secKey hmc hml hsc hsl body
  have hbd : ∀ a ∈ parseChecklist mk setD secKey body,
      lidx a < (pySplitlines body).length := fun a ha => (hok a ha).1
  obtain ⟨m1, m2, m3⟩ := markLines_spec chk lidx S (pySplitlines body)
    (parseChecklist mk setD secKey body) hpw hbd
  have hev := unchecked_evidence chk lidx mk setD secKey hmc hml hsc hsl body
  have hnn2 : ∀ l2 ∈ markLines chk lidx (parseChecklist mk setD secKey body) S
      (pySplitlines body), '\n' ∉ l2 := by
    intro l2 hl2
    obtain ⟨j, hj⟩ := List.mem_iff_getElem?.mp hl2
    have hjlt : j < (pySplitlines body).length := by
      have h0 := (List.getElem?_eq_some_iff.mp hj).1
      rwa [m1] at h0
    have hmem : (pySplitlines body).getD j [] ∈ pySplitlines body := by
      rw [List.getD_eq_getElem?_getD, List.getElem?_eq_getElem hjlt]
      exact List.getElem_mem hjlt
    by_cases hqj : ∃ (p : Nat) (a : α),
        (parseChecklist mk setD secKey body)[p]? = some a ∧ lidx a = j ∧
        ((p : Int) ∈ S ∧ chk a = false)
    · obtain ⟨p, a, hp, hlj, hq⟩ := hqj
      have hm2 := m2 p a hp hq
      rw [hlj, hj] at hm2
      injection hm2 with hm2
      rw [hm2]
      exact replaceFirst_no_newline (by decide)
        (pySplitlines_no_newline body _ hmem)
    · have hm3 := m3 j (fun p a hp hlj hq => hqj ⟨p, a, hp, hlj, hq⟩)
      rw [hj, List.getElem?_eq_getElem hjlt] at hm3
      injection hm3 with hm3
      rw [hm3]
      exact pySplitlines_no_newline body _ (List.getElem_mem hjlt)
  have hgl2 : (markLines chk lidx (parseChecklist mk setD secKey body) S
      (pySplitlines body)).getLast? ≠ some ([] : Str) := by
    by_cases hnil : markLines chk lidx (parseChecklist mk setD secKey body) S
        (pySplitlines body) = []
    · rw [hnil]; simp
    · rw [List.getLast?_eq_getElem?, m1]
      have hlen0 : pySplitlines body ≠ [] := by
        intro h0
        apply hnil
        rw [← List.length_eq_zero, m1, h0]
        rfl
      have hjlt : (pySplitlines body).length - 1 < (pySplitlines body).length := by
        have : 0 < (pySplitlines body).length := List.length_pos.mpr hlen0
        omega
      by_cases hqj : ∃ (p : Nat) (a : α),
          (parseChecklist mk setD secKey body)[p]? = some a ∧
          lidx a = (pySplitlines body).length - 1 ∧ ((p : Int) ∈ S ∧ chk a = false)
      · obtain ⟨p, a, hp, hlj, hq⟩ := hqj
        have hm2 := m2 p a hp hq
        rw [hlj] at hm2
        rw [hm2]
        obtain ⟨rest, hmm⟩ := hev a (List.getElem?_mem hp) hq.2
        rw [hlj] at hmm
        have hlne : (pySplitlines body).getD ((pySplitlines body).length - 1) [] ≠ [] := by
          intro h0
          rw [h0] at hmm
          exact Option.noConfusion hmm
        intro hcon
        injection hcon with hcon
        exact replaceFirst_ne_nil (by decide) hlne hcon
      · have hm3 := m3 ((pySplitlines body).length - 1)
          (fun p a hp hlj hq => hqj ⟨p, a, hp, hlj, hq⟩)
        rw [hm3, ← List.getLast?_eq_getElem?]
        exact h
  refine ⟨pySplitlines_joinLines _ hnn2 hgl2, m1, ?_, m3⟩
  intro p a hp hq
  exact ⟨hev a (List.getElem?_mem hp) hq.2, m2 p a hp hq⟩

end Gen3

/-- C3 (corrected): provided the body does not end in an empty line,
`mark_articles_completed` / `mark_topics_completed` flip, by replacing the
first `[ ]` with `[x]`, exactly the source lines of parsed items whose
position is in the index set and that were previously unchecked (such lines
match the unchecked checklist pattern), and every other line of the output is
byte-identical to the corresponding line of the input; the counterexample
shows that the byte-identity of the rejoined text fails on bodies with a
trailing empty line, which forces the added hypothesis and the line-level
phrasing. -/
theorem mark_precision (body : Str) (S : List Int)
    (h : (pySplitlines body).getLast? ≠ some ([] : Str)) :
    ((pySplitlines (mark_articles_completed body S)).length = (pySplitlines body).length ∧
     (∀ (p : Nat) (a : IssueArticle), (parse_issue_articles body)[p]? = some a →
        (p : Int) ∈ S → a.checked = false →
        (∃ rest, matchArticleLine
            (pyStrip (pyRstrip ((pySplitlines body).getD a.line_index [])))
            = some (' ', rest)) ∧
        (pySplitlines (mark_articles_completed body S))[a.line_index]?
          = some (replaceFirst (str "[ ]") (str "[x]")
              ((pySplitlines body).getD a.line_index []))) ∧
     (∀ j : Nat, (∀ (p : Nat) (a : IssueArticle),
          (parse_issue_articles body)[p]? = some a → a.line_index = j →
          ¬((p : Int) ∈ S ∧ a.checked = false)) →
        (pySplitlines (mark_articles_completed body S))[j]? = (pySplitlines body)[j]?)) ∧
    ((pySplitlines (mark_topics_completed body S)).length = (pySplitlines body).length ∧
     (∀ (p : Nat) (t : IssueTopic), (parse_issue_topics body)[p]? = some t →
        (p : Int) ∈ S → t.checked = false →
        (∃ rest, matchArticleLine
            (pyStrip (pyRstrip ((pySplitlines body).getD t.line_index [])))
            = some (' ', rest)) ∧
        (pySplitlines (mark_topics_completed body S))[t.line_index]?
          = some (replaceFirst (str "[ ]") (str "[x]")
              ((pySplitlines body).getD t.line_index []))) ∧
     (∀ j : Nat, (∀ (p : Nat) (t : IssueTopic),
          (parse_issue_topics body)[p]? = some t → t.line_index = j →
          ¬((p : Int) ∈ S ∧ t.checked = false)) →
        (pySplitlines (mark_topics_completed body S))[j]? = (pySplitlines body)[j]?)) := by
  by_cases hS : S = []
  · subst hS
    have hma : mark_articles_completed body [] = body := by
      rw [mark_articles_completed]
      exact if_pos rfl
    have hmt : mark_topics_completed body [] = body := by
      rw [mark_topics_completed]
      exact if_pos rfl
    rw [hma, hmt]
    exact ⟨⟨rfl, fun p a _ hp => absurd hp (List.not_mem_nil _),
        fun j _ => rfl⟩,
      ⟨rfl, fun p t _ hp => absurd hp (List.not_mem_nil _),
        fun j _ => rfl⟩⟩
  · have hma : mark_articles_completed body S
        = joinLines (markLines IssueArticle.checked IssueArticle.line_index
            (parseChecklist mkIssueArticle setDetailsA (str "articles to find") body) S
            (pySplitlines body)) := by
      rw [mark_articles_completed, if_neg hS]
      rfl
    have hmt : mark_topics_completed body S
        = joinLines (markLines IssueTopic.checked IssueTopic.line_index
            (parseChecklist mkIssueTopic setDetailsT (str "topics to review") body) S
            (pySplitlines body)) := by
      rw [mark_topics_completed, if_neg hS]
      rfl
    obtain ⟨a1, a2, a3, a4⟩ := mark_lines_gen IssueArticle.checked
      IssueArticle.line_index mkIssueArticle setDetailsA
      (str "articles to find")
      (fun r b i => rfl) (fun r b i => rfl) (fun a ds => rfl) (fun a ds => rfl) body S h
    obtain ⟨t1, t2, t3, t4⟩ := mark_lines_gen IssueTopic.checked
      IssueTopic.line_index mkIssueTopic setDetailsT
      (str "topics to review")
      (fun r b i => rfl) (fun r b i => rfl) (fun a ds => rfl) (fun a ds => rfl) body S h
    rw [hma, hmt, a1, t1]
    exact ⟨⟨a2, fun p a hp hin hcf => a3 p a hp ⟨hin, hcf⟩, a4⟩,
      ⟨t2, fun p t hp hin hcf => t3 p t hp ⟨hin, hcf⟩, t4⟩⟩

theorem mark_precision_witness :
    (pySplitlines (str "## Articles to Find\n- [ ] Alpha")).getLast? ≠ some ([] : Str) ∧
    (pySplitlines (mark_articles_completed (str "## Articles to Find\n- [ ] Alpha") [0])).length
      = (pySplitlines (str "## Articles to Find\n- [ ] Alpha")).length :=
  ⟨by decide, (mark_precision (str "## Articles to Find\n- [ ] Alpha") [0] (by decide)).1.1⟩


section Stability

variable {α : Type} (chk : α → Bool) (lidx : α → Nat)
variable (mk : Str → Bool → Nat → α) (setD : α → List Str → α) (secKey : Str)
variable (flip : α → α)

theorem parseStep_rel
    (hml : ∀ r b i, lidx (mk r b i) = i)
    (hsl : ∀ a ds, lidx (setD a ds) = lidx a)
    (hfm : ∀ r b i, flip (mk r b i) = mk r true i)
    (hfs : ∀ a ds, setD (flip a) ds = flip (setD a ds))
    {F : Nat → Bool} {i : Nat} {l : Str} {st st' : ParseSt α}
    (hev : F i = true → ∃ rest, matchArticleLine (pyStrip (pyRstrip l)) = some (' ', rest))
    (hrel : StRel lidx flip F st st') :
    StRel lidx flip F (parseStep mk setD secKey i l st)
      (parseStep mk setD secKey i
        (if F i then replaceFirst (str "[ ]") (str "[x]") l else l) st') := by
  obtain ⟨hsec, hdet, hcur, hacc⟩ := hrel
  have hsetflip : ∀ (a : α) (ds : List Str),
      setD (flipIf lidx flip F a) ds = flipIf lidx flip F (setD a ds) := by
    intro a ds
    rw [flipIf, flipIf, hsl]
    by_cases hFa : F (lidx a)
    · rw [if_pos hFa, if_pos hFa, hfs]
    · rw [if_neg hFa, if_neg hFa]
  by_cases hF : F i = true
  · obtain ⟨rest, hm⟩ := hev hF
    obtain ⟨hm', hh'⟩ := flip_line hm
    have hhl : matchHeading (pyRstrip l) = none := article_not_heading hm
    rw [if_pos hF]
    simp only [parseStep, hhl, hh', hm, hm']
    rw [hsec]
    by_cases hins : st.inSec = false
    · rw [if_pos hins, if_pos hins]
      exact ⟨hsec, hdet, hcur, hacc⟩
    · rw [if_neg hins, if_neg hins]
      cases hc : st.cur with
      | some a =>
        have hc' : st'.cur = some (flipIf lidx flip F a) := by rw [hcur, hc]; rfl
        simp only [hc, hc']
        refine ⟨rfl, rfl, ?_, ?_⟩
        · show some (mk rest (decide (Char.toLower 'x' = 'x')) i)
            = some (flipIf lidx flip F (mk rest (decide (Char.toLower ' ' = 'x')) i))
          rw [show decide (Char.toLower 'x' = 'x') = true by decide,
            show decide (Char.toLower ' ' = 'x') = false by decide]
          rw [flipIf, hml, if_pos hF, hfm]
        · rw [hacc, hdet, List.map_append]
          rw [List.map_singleton, hsetflip]
      | none =>
        have hc' : st'.cur = none := by rw [hcur, hc]; rfl
        simp only [hc, hc']
        refine ⟨rfl, hdet, ?_, hacc⟩
        show some (mk rest (decide (Char.toLower 'x' = 'x')) i)
          = some (flipIf lidx flip F (mk rest (decide (Char.toLower ' ' = 'x')) i))
        rw [show decide (Char.toLower 'x' = 'x') = true by decide,
          show decide (Char.toLower ' ' = 'x') = false by decide]
        rw [flipIf, hml, if_pos hF, hfm]
  · rw [if_neg hF]
    simp only [parseStep]
    cases hh : matchHeading (pyRstrip l) with
    | some hd =>
      dsimp only
      cases hc : st.cur with
      | some a =>
        have hc' : st'.cur = some (flipIf lidx flip F a) := by rw [hcur, hc]; rfl
        simp only [hc, hc']
        refine ⟨rfl, rfl, rfl, ?_⟩
        rw [hacc, hdet, List.map_append, List.map_singleton, hsetflip]
      | none =>
        have hc' : st'.cur = none := by rw [hcur, hc]; rfl
        simp only [hc, hc']
        exact ⟨rfl, hdet, rfl, hacc⟩
    | none =>
      dsimp only
      rw [hsec]
      by_cases hins : st.inSec = false
      · rw [if_pos hins, if_pos hins]
        exact ⟨hsec, hdet, hcur, hacc⟩
      · rw [if_neg hins, if_neg hins]
        cases hm : matchArticleLine (pyStrip (pyRstrip l)) with
        | some p =>
          rcases p with ⟨c, rest⟩
          dsimp only
          cases hc : st.cur with
          | some a =>
            have hc' : st'.cur = some (flipIf lidx flip F a) := by rw [hcur, hc]; rfl
            simp only [hc, hc']
            refine ⟨rfl, rfl, ?_, ?_⟩
            · show some (mk rest (decide (Char.toLower c = 'x')) i)
                = some (flipIf lidx flip F (mk rest (decide (Char.toLower c = 'x')) i))
              rw [flipIf, hml, if_neg hF]
            · rw [hacc, hdet, List.map_append, List.map_singleton, hsetflip]
          | none =>
            have hc' : st'.cur = none := by rw [hcur, hc]; rfl
            simp only [hc, hc']
            refine ⟨rfl, hdet, ?_, hacc⟩
            show some (mk rest (decide (Char.toLower c = 'x')) i)
              = some (flipIf lidx flip F (mk rest (decide (Char.toLower c = 'x')) i))
            rw [flipIf, hml, if_neg hF]
        | none =>
          dsimp only
          cases hc : st.cur with
          | some a =>
            have hc' : st'.cur = some (flipIf lidx flip F a) := by rw [hcur, hc]; rfl
            simp only [hc, hc', Option.isSome_some]
            by_cases hsw : strStartsWith ['-'] (pyLstrip (pyRstrip l)) = true
            · rw [if_pos ⟨trivial, hsw⟩, if_pos ⟨trivial, hsw⟩]
              exact ⟨rfl, by rw [hdet], rfl, hacc⟩
            · rw [if_neg (fun hco => hsw hco.2), if_neg (fun hco => hsw hco.2)]
              exact ⟨hsec, hdet, hcur, hacc⟩
          | none =>
            have hc' : st'.cur = none := by rw [hcur, hc]; rfl
            simp only [hc, hc', Option.isSome_none]
            rw [if_neg (fun hco => Bool.false_ne_true hco.1),
              if_neg (fun hco => Bool.false_ne_true hco.1)]
            exact ⟨hsec, hdet, hcur, hacc⟩

end Stability

section Stability2

variable {α : Type} (chk : α → Bool) (lidx : α → Nat)
variable (mk : Str → Bool → Nat → α) (setD : α → List Str → α) (secKey : Str)
variable (flip : α → α)

theorem parseLoop_rel
    (hml : ∀ r b i, lidx (mk r b i) = i)
    (hsl : ∀ a ds, lidx (setD a ds) = lidx a)
    (hfm : ∀ r b i, flip (mk r b i) = mk r true i)
    (hfs : ∀ a ds, setD (flip a) ds = flip (setD a ds))
    {F : Nat → Bool} :
    ∀ (ls : List Str) (ls' : List Str) (i : Nat) (st st' : ParseSt α),
      LinesRel F i ls ls' → StRel lidx flip F st st' →
      StRel lidx flip F (parseLoop mk setD secKey i st ls)
        (parseLoop mk setD secKey i st' ls') := by
  intro ls
  induction ls with
  | nil =>
    intro ls' i st st' hrel hst
    rw [LinesRel] at hrel
    subst hrel
    exact hst
  | cons l t ih =>
    intro ls' i st st' hrel hst
    rw [LinesRel] at hrel
    obtain ⟨t', hls', hev, hrelT⟩ := hrel
    subst hls'
    rw [parseLoop, parseLoop]
    exact ih t' (i + 1) _ _ hrelT (parseStep_rel lidx mk setD secKey flip hml hsl hfm hfs hev hst)

theorem parseFinish_rel
    (hsl : ∀ a ds, lidx (setD a ds) = lidx a)
    (hfs : ∀ a ds, setD (flip a) ds = flip (setD a ds))
    {F : Nat → Bool} {st st' : ParseSt α}
    (hrel : StRel lidx flip F st st') :
    parseFinish setD st' = (parseFinish setD st).map (flipIf lidx flip F) := by
  obtain ⟨hsec, hdet, hcur, hacc⟩ := hrel
  rw [parseFinish, parseFinish]
  cases hc : st.cur with
  | some a =>
    have hc' : st'.cur = some (flipIf lidx flip F a) := by rw [hcur, hc]; rfl
    simp only [hc, hc']
    rw [hacc, hdet, List.map_append, List.map_singleton]
    have : setD (flipIf lidx flip F a) st.curDetails
        = flipIf lidx flip F (setD a st.curDetails) := by
      rw [flipIf, flipIf, hsl]
      by_cases hFa : F (lidx a)
      · rw [if_pos hFa, if_pos hFa, hfs]
      · rw [if_neg hFa, if_neg hFa]
    rw [this]
  | none =>
    have hc' : st'.cur = none := by rw [hcur, hc]; rfl
    simp only [hc, hc']
    exact hacc

theorem parseChecklist_rel
    (hml : ∀ r b i, lidx (mk r b i) = i)
    (hsl : ∀ a ds, lidx (setD a ds) = lidx a)
    (hfm : ∀ r b i, flip (mk r b i) = mk r true i)
    (hfs : ∀ a ds, setD (flip a) ds = flip (setD a ds))
    {F : Nat → Bool} {body body' : Str}
    (hrel : LinesRel F 0 (pySplitlines body) (pySplitlines body')) :
    parseChecklist mk setD secKey body'
      = (parseChecklist mk setD secKey body).map (flipIf lidx flip F) := by
  rw [parseChecklist, parseChecklist]
  exact parseFinish_rel lidx setD flip hsl hfs
    (parseLoop_rel lidx mk setD secKey flip hml hsl hfm hfs
      (pySplitlines body) (pySplitlines body') 0 _ _ hrel
      ⟨rfl, rfl, rfl, rfl⟩)

end Stability2

theorem LinesRel_of_pointwise (F : Nat → Bool) :
    ∀ (ls ls' : List Str) (i : Nat),
      (∀ j : Nat, ls'[j]? = if F (i + j) then
          (ls[j]?).map (replaceFirst (str "[ ]") (str "[x]")) else ls[j]?) →
      (∀ j : Nat, F (i + j) = true → ∀ l, ls[j]? = some l →
          ∃ rest, matchArticleLine (pyStrip (pyRstrip l)) = some (' ', rest)) →
      LinesRel F i ls ls' := by
  intro ls
  induction ls with
  | nil =>
    intro ls' i hpt _
    rw [LinesRel]
    have h0 := hpt 0
    simp only [List.getElem?_nil, Option.map_none', ite_self] at h0
    rcases ls' with _ | ⟨x, t'⟩
    · rfl
    · rw [List.getElem?_cons_zero] at h0
      exact Option.noConfusion h0
  | cons l t ih =>
    intro ls' i hpt hev
    rw [LinesRel]
    have h0 := hpt 0
    rw [Nat.add_zero] at h0
    simp only [List.getElem?_cons_zero, Option.map_some'] at h0
    rcases ls' with _ | ⟨x, t'⟩
    · rw [List.getElem?_nil] at h0
      by_cases hF : F i = true
      · rw [if_pos hF] at h0; exact Option.noConfusion h0
      · rw [if_neg hF] at h0; exact Option.noConfusion h0
    · refine ⟨t', ?_, ?_, ?_⟩
      · rw [List.getElem?_cons_zero] at h0
        have : some x = some (if F i then replaceFirst (str "[ ]") (str "[x]") l else l) := by
          rw [h0, apply_ite some]
        injection this with this
        rw [this]
      · intro hF
        exact hev 0 (by rw [Nat.add_zero]; exact hF) l (by rw [List.getElem?_cons_zero])
      · refine ih t' (i + 1) ?_ ?_
        · intro j
          have hj := hpt (j + 1)
          rw [show i + (j + 1) = (i + 1) + j by omega] at hj
          simp only [List.getElem?_cons_succ] at hj
          exact hj
        · intro j hF l2 hl2
          have := hev (j + 1) (by rw [show i + (j + 1) = (i + 1) + j by omega]; exact hF) l2
            (by rw [List.getElem?_cons_succ]; exact hl2)
          exact this

section Idem

variable {α : Type} (chk : α → Bool) (lidx : α → Nat)
variable (mk : Str → Bool → Nat → α) (setD : α → List Str → α) (secKey : Str)
variable (flip : α → α)

theorem mark_idem_gen
    (hmc : ∀ r b i, chk (mk r b i) = b)
    (hml : ∀ r b i, lidx (mk r b i) = i)
    (hsc : ∀ a ds, chk (setD a ds) = chk a)
    (hsl : ∀ a ds, lidx (setD a ds) = lidx a)
    (hfm : ∀ r b i, flip (mk r b i) = mk r true i)
    (hfs : ∀ a ds, setD (flip a) ds = flip (setD a ds))
    (hfc : ∀ a, chk (flip a) = true)
    (body : Str) (S : List Int)
    (h : (pySplitlines body).getLast? ≠ some ([] : Str)) :
    pySplitlines (joinLines (markLines chk lidx (parseChecklist mk setD secKey body) S
        (pySplitlines body)))
      = markLines chk lidx (parseChecklist mk setD secKey body) S (pySplitlines body) ∧
    markLines chk lidx
        (parseChecklist mk setD secKey
          (joinLines (markLines chk lidx (parseChecklist mk setD secKey body) S
            (pySplitlines body))))
        S
        (pySplitlines (joinLines (markLines chk lidx (parseChecklist mk setD secKey body) S
          (pySplitlines body))))
      = markLines chk lidx (parseChecklist mk setD secKey body) S (pySplitlines body) := by
  obtain ⟨g1, g2, g3, g4⟩ := mark_lines_gen chk lidx mk setD secKey hmc hml hsc hsl body S h
  refine ⟨g1, ?_⟩
  have hok := (parseChecklist_ok chk lidx mk setD secKey hmc hml hsc hsl body).1
  have hev0 := unchecked_evidence chk lidx mk setD secKey hmc hml hsc hsl body
  have hFmk : ∀ (p : Nat) (a : α), (parseChecklist mk setD secKey body)[p]? = some a →
      (p : Int) ∈ S → chk a = false →
      (parseChecklist mk setD secKey body).enum.any
        (fun pa => decide ((pa.1 : Int) ∈ S) && !chk pa.2
          && decide (lidx pa.2 = lidx a)) = true := by
    intro p a hp hin hcf
    refine List.any_eq_true.mpr ⟨(p, a), List.mem_enum_iff_getElem?.mpr hp, ?_⟩
    simp only [Bool.and_eq_true, decide_eq_true_eq, Bool.not_eq_true']
    exact ⟨⟨hin, hcf⟩, trivial⟩
  have hFtrue : ∀ j : Nat,
      (parseChecklist mk setD secKey body).enum.any
        (fun pa => decide ((pa.1 : Int) ∈ S) && !chk pa.2 && decide (lidx pa.2 = j)) = true →
      ∃ (p : Nat) (a : α), (parseChecklist mk setD secKey body)[p]? = some a ∧
        ((p : Int) ∈ S ∧ chk a = false) ∧ lidx a = j := by
    intro j hj
    obtain ⟨pa, hmem, hcond⟩ := List.any_eq_true.mp hj
    rcases pa with ⟨p, a⟩
    simp only [Bool.and_eq_true, decide_eq_true_eq, Bool.not_eq_true'] at hcond
    exact ⟨p, a, List.mem_enum_iff_getElem?.mp hmem, ⟨hcond.1.1, hcond.1.2⟩, hcond.2⟩
  have hpt : ∀ j : Nat,
      (markLines chk lidx (parseChecklist mk setD secKey body) S (pySplitlines body))[j]?
        = if (parseChecklist mk setD secKey body).enum.any
            (fun pa => decide ((pa.1 : Int) ∈ S) && !chk pa.2 && decide (lidx pa.2 = j)) then
            ((pySplitlines body)[j]?).map (replaceFirst (str "[ ]") (str "[x]"))
          else (pySplitlines body)[j]? := by
    intro j
    by_cases hFj : (parseChecklist mk setD secKey body).enum.any
        (fun pa => decide ((pa.1 : Int) ∈ S) && !chk pa.2 && decide (lidx pa.2 = j)) = true
    · rw [if_pos hFj]
      obtain ⟨p, a, hp, hq, hlj⟩ := hFtrue j hFj
      have h2 := (g3 p a hp hq).2
      rw [hlj] at h2
      have hjlt : j < (pySplitlines body).length := by
        rw [← hlj]
        exact (hok a (List.getElem?_mem hp)).1
      rw [h2, List.getElem?_eq_getElem hjlt]
      rw [List.getD_eq_getElem?_getD, List.getElem?_eq_getElem hjlt]
      rfl
    · rw [if_neg hFj]
      refine g4 j ?_
      intro p a hp hlj hq
      exact hFj (hlj ▸ hFmk p a hp hq.1 hq.2)
  have hLR : LinesRel
      (fun j => (parseChecklist mk setD secKey body).enum.any
        (fun pa => decide ((pa.1 : Int) ∈ S) && !chk pa.2 && decide (lidx pa.2 = j)))
      0 (pySplitlines body)
      (markLines chk lidx (parseChecklist mk setD secKey body) S (pySplitlines body)) := by
    refine LinesRel_of_pointwise _ _ _ 0 ?_ ?_
    · intro j
      rw [Nat.zero_add]
      exact hpt j
    · intro j hFj l hl
      rw [Nat.zero_add] at hFj
      obtain ⟨p, a, hp, hq, hlj⟩ := hFtrue j hFj
      obtain ⟨rest, hr⟩ := hev0 a (List.getElem?_mem hp) hq.2
      rw [hlj] at hr
      rw [List.getD_eq_getElem?_getD, hl] at hr
      exact ⟨rest, hr⟩
  have hitems2 : parseChecklist mk setD secKey
      (joinLines (markLines chk lidx (parseChecklist mk setD secKey body) S
        (pySplitlines body)))
      = (parseChecklist mk setD secKey body).map
          (flipIf lidx flip
            (fun j => (parseChecklist mk setD secKey body).enum.any
              (fun pa => decide ((pa.1 : Int) ∈ S) && !chk pa.2
                && decide (lidx pa.2 = j)))) := by
    refine parseChecklist_rel lidx mk setD secKey flip hml hsl hfm hfs ?_
    rw [g1]
    exact hLR
  rw [g1, hitems2]
  refine markLines_noop chk lidx S _ _ ?_
  intro p a' hp hq
  rw [List.getElem?_map] at hp
  obtain ⟨a, ha, hfa⟩ := Option.map_eq_some'.mp hp
  by_cases hca : chk a = false
  · have hFj := hFmk p a ha hq.1 hca
    rw [← hfa, flipIf, if_pos hFj, hfc] at hq
    exact Bool.true_eq_false ▸ hq.2
  · rw [← hfa, flipIf] at hq
    rcases hq with ⟨_, hq2⟩
    by_cases hFa : (parseChecklist mk setD secKey body).enum.any
        (fun pa => decide ((pa.1 : Int) ∈ S) && !chk pa.2 && decide (lidx pa.2 = lidx a)) = true
    · rw [if_pos hFa, hfc] at hq2
      exact Bool.true_eq_false ▸ hq2
    · rw [if_neg hFa] at hq2
      exact hca hq2

end Idem

/-- C6 (corrected): provided the body does not end in an empty line, marking
is idempotent for both checklist writers: marking the marked body with the
same index set returns the marked body unchanged; the counterexample shows
idempotence fails without this hypothesis because each pass drops a trailing
newline in the split/join roundtrip. -/
theorem mark_idempotent (body : Str) (S : List Int)
    (h : (pySplitlines body).getLast? ≠ some ([] : Str)) :
    mark_articles_completed (mark_articles_completed body S) S
      = mark_articles_completed body S ∧
    mark_topics_completed (mark_topics_completed body S) S
      = mark_topics_completed body S := by
  by_cases hS : S = []
  · subst hS
    have hma : ∀ b, mark_articles_completed b [] = b := fun b => by
      rw [mark_articles_completed]
      exact if_pos rfl
    have hmt : ∀ b, mark_topics_completed b [] = b := fun b => by
      rw [mark_topics_completed]
      exact if_pos rfl
    exact ⟨by rw [hma, hma], by rw [hmt, hmt]⟩
  · have hma : ∀ b, mark_articles_completed b S
        = joinLines (markLines IssueArticle.checked IssueArticle.line_index
            (parseChecklist mkIssueArticle setDetailsA (str "articles to find") b) S
            (pySplitlines b)) := fun b => by
      rw [mark_articles_completed, if_neg hS]
      rfl
    have hmt : ∀ b, mark_topics_completed b S
        = joinLines (markLines IssueTopic.checked IssueTopic.line_index
            (parseChecklist mkIssueTopic setDetailsT (str "topics to review") b) S
            (pySplitlines b)) := fun b => by
      rw [mark_topics_completed, if_neg hS]
      rfl
    obtain ⟨_, a2⟩ := mark_idem_gen IssueArticle.checked
      IssueArticle.line_index mkIssueArticle setDetailsA
      (str "articles to find")
      (fun a => { a with checked := true })
      (fun r b i => rfl) (fun r b i => rfl) (fun a ds => rfl) (fun a ds => rfl)
      (fun r b i => rfl) (fun a ds => rfl) (fun a => rfl) body S h
    obtain ⟨_, t2⟩ := mark_idem_gen IssueTopic.checked
      IssueTopic.line_index mkIssueTopic setDetailsT
      (str "topics to review")
      (fun t => { t with checked := true })
      (fun r b i => rfl) (fun r b i => rfl) (fun a ds => rfl) (fun a ds => rfl)
      (fun r b i => rfl) (fun a ds => rfl) (fun a => rfl) body S h
    constructor
    · rw [hma, hma, a2]
    · rw [hmt, hmt, t2]

theorem mark_idempotent_witness :
    (pySplitlines (str "## Articles to Find\n- [ ] Alpha")).getLast? ≠ some ([] : Str) ∧
    mark_articles_completed
        (mark_articles_completed (str "## Articles to Find\n- [ ] Alpha") [0]) [0]
      = mark_articles_completed (str "## Articles to Find\n- [ ] Alpha") [0] :=
  ⟨by decide, (mark_idempotent (str "## Articles to Find\n- [ ] Alpha") [0] (by decide)).1⟩

/-- C3 (corrected) counterexample: the writer rejoins the split lines with
newlines, so a body ending in an empty line is changed even when no checklist
item is parsed at all; the output is not byte-identical outside the targeted
items. -/
theorem mark_changes_text_without_items :
    parse_issue_articles (str "x\n\n") = [] ∧
    mark_articles_completed (str "x\n\n") [0] ≠ str "x\n\n" := by decide

/-- C6 (corrected) counterexample: marking is not idempotent on a body ending
in an empty line; each pass drops one trailing newline during the
split/join roundtrip. -/
theorem mark_not_idempotent :
    mark_articles_completed (mark_articles_completed (str "a\n\n") [0]) [0]
      ≠ mark_articles_completed (str "a\n\n") [0] := by decide
